import Mathlib

/-!
# Conversation Mining Engine — verification of the analyzer scripts

A shallow embedding of the Python analyzer scripts of this repository
(`chatgpt-analyzer.py`, `chatgpt-chunk-processor.py`, `chatgpt-deep-analyzer.py`,
`mike-deep-dive-analyzer.py`, `mike-final-analyzer.py`, `mike-real-analysis.py`,
`mike-decision-tree-extractor.py`) together with theorems settling the spec's
claims about them.

Conventions of the embedding:
* JSON values loaded by `json.load` are modelled by the inductive type `J`
  (`null`/`bool`/`num`/`str`/`arr`/`obj`).  Numbers are modelled as integers —
  the scripts only ever compare timestamps for truthiness and pass them to
  `datetime.fromtimestamp`, and every claim uses integral values.  Object keys
  keep insertion order and are assumed distinct (as produced by `json.load`).
* Fallible Python operations (attribute access on a non-dict, `KeyError`,
  `TypeError`) are modelled with `Except String`; the string names the Python
  exception raised at that spot.
* `datetime.fromtimestamp(..).strftime(..)` depends on the process time zone;
  we model the UTC zone (the civil-from-days algorithm), which every claim's
  concrete input is insensitive to.
* File I/O (loading the corpus, writing the Markdown reports) is the external
  boundary: the embedded functions take the already-decoded list of
  conversation values and return the accumulated in-memory state.
-/

/-- A JSON value as produced by `json.load`.  Objects keep insertion order. -/
inductive J : Type where
  | null : J
  | bool : Bool → J
  | num : Int → J
  | str : String → J
  | arr : List J → J
  | obj : List (String × J) → J

namespace PyModel

/-- Python truthiness of a JSON-decoded value (`if x:`). -/
def pyTruthy : J → Bool
  | J.null => false
  | J.bool b => b
  | J.num n => n ≠ 0
  | J.str s => s ≠ ""
  | J.arr l => !l.isEmpty
  | J.obj l => !l.isEmpty

/-- First binding of a key in an object's field list (Python dict lookup,
keys assumed distinct). -/
def jLookup (fields : List (String × J)) (k : String) : Option J :=
  match fields with
  | [] => none
  | (k', v) :: rest => if k' = k then some v else jLookup rest k

/-- `x.get(key, default)` — raises `AttributeError` when `x` is not a dict. -/
def pyGet (x : J) (key : String) (dflt : J) : Except String J :=
  match x with
  | J.obj fields =>
      match jLookup fields key with
      | some v => Except.ok v
      | none => Except.ok dflt
  | _ => Except.error "AttributeError: get"

/-- `x[key]` — `KeyError` when absent, `TypeError` when `x` is not a dict. -/
def pyIndex (x : J) (key : String) : Except String J :=
  match x with
  | J.obj fields =>
      match jLookup fields key with
      | some v => Except.ok v
      | none => Except.error ("KeyError: " ++ key)
  | _ => Except.error "TypeError: subscript"

/-- `x.items()` — raises `AttributeError` when `x` is not a dict. -/
def pyItems (x : J) : Except String (List (String × J)) :=
  match x with
  | J.obj fields => Except.ok fields
  | _ => Except.error "AttributeError: items"

/-- `isinstance(x, str)`. -/
def isStr : J → Bool
  | J.str _ => true
  | _ => false

/-- `isinstance(x, dict)`. -/
def isObj : J → Bool
  | J.obj _ => true
  | _ => false

mutual

/-- `str(x)` for a JSON-decoded value (used by
`content_text.append(str(part['content']))`).  Containers print in Python
`repr` style with single-quoted strings. -/
def pyStr : J → String
  | J.null => "None"
  | J.bool true => "True"
  | J.bool false => "False"
  | J.num n => toString n
  | J.str s => s
  | J.arr l => "[" ++ String.intercalate ", " (pyReprList l) ++ "]"
  | J.obj l => "\x7b" ++ String.intercalate ", " (pyReprFields l) ++ "\x7d"

/-- `repr(x)` as used for elements inside containers. -/
def pyRepr : J → String
  | J.str s => "\x27" ++ s ++ "\x27"
  | J.null => "None"
  | J.bool true => "True"
  | J.bool false => "False"
  | J.num n => toString n
  | J.arr l => "[" ++ String.intercalate ", " (pyReprList l) ++ "]"
  | J.obj l => "\x7b" ++ String.intercalate ", " (pyReprFields l) ++ "\x7d"

/-- `repr` of the elements of a list value. -/
def pyReprList : List J → List String
  | [] => []
  | x :: xs => pyRepr x :: pyReprList xs

/-- `repr` of the key/value pairs of a dict value. -/
def pyReprFields : List (String × J) → List String
  | [] => []
  | (k, v) :: xs => ("\x27" ++ k ++ "\x27: " ++ pyRepr v) :: pyReprFields xs

end

/-- `' '.join(xs)` over values that must all be strings (`TypeError`
otherwise, as in CPython). -/
def pyJoinSpace (xs : List J) : Except String String :=
  match xs with
  | [] => Except.ok ""
  | x :: rest => do
      let s ← expectStr x
      let tail ← pyJoinSpace rest
      if rest.isEmpty then
        pure s
      else
        pure (s ++ " " ++ tail)
where
  expectStr : J → Except String String
  | J.str s => Except.ok s
  | _ => Except.error "TypeError: join"

/-- Python `char.isspace()` for the whitespace handled by `str.strip()`. -/
def pyIsSpace (c : Char) : Bool :=
  c = ' ' || c = '\t' || c = '\n' || c = '\r' || c = '\x0b' || c = '\x0c'

/-- `s.strip()` on a character list. -/
def pyStripList (s : List Char) : List Char :=
  ((s.dropWhile pyIsSpace).reverse.dropWhile pyIsSpace).reverse

/-- `s.strip()`. -/
def pyStrip (s : String) : String :=
  String.mk (pyStripList s.toList)

/-- ASCII `str.lower()` (the corpus text relevant to every claim is ASCII). -/
def pyLowerChar (c : Char) : Char :=
  if 'A' ≤ c ∧ c ≤ 'Z' then Char.ofNat (c.toNat + 32) else c

/-- `s.lower()`. -/
def pyLower (s : String) : String :=
  String.mk (s.toList.map pyLowerChar)

/-- Boolean list-prefix test. -/
def isPrefixList : List Char → List Char → Bool
  | [], _ => true
  | _ :: _, [] => false
  | a :: as, b :: bs => a = b && isPrefixList as bs

/-- Substring containment on character lists. -/
def containsSub (needle : List Char) : List Char → Bool
  | [] => isPrefixList needle []
  | c :: rest => isPrefixList needle (c :: rest) || containsSub needle rest

/-- `needle in haystack` for strings (substring containment). -/
def pyInStr (needle haystack : String) : Bool :=
  containsSub needle.toList haystack.toList

end PyModel

/-! ## A backtracking regular-expression engine

The scripts use `re.search` / `re.finditer` / `re.findall` with the flags
`re.IGNORECASE` (always) and sometimes `re.DOTALL`.  The engine below
implements CPython's leftmost, backtracking match semantics (alternation
prefers the left branch, greedy quantifiers prefer more, lazy quantifiers
prefer fewer) for the constructs actually occurring in the scripts' patterns:
literals, character classes, `.`, `\w`, `\s`, `(?:..|..)`, `*`, `+`, `?`,
`*?`, `+?`, `{m,n}`, capturing groups and `$`.  Case-insensitive comparison
is built in because every `re` call in the scripts passes `re.IGNORECASE`.
-/

namespace PyModel

/-- Regular-expression abstract syntax. -/
inductive RE : Type where
  | eps : RE
  | lit : Char → RE
  | cls : List Char → RE
  | any : RE
  | wordc : RE
  | spacec : RE
  | seq : RE → RE → RE
  | alt : RE → RE → RE
  | starG : RE → RE
  | starL : RE → RE
  | optG : RE → RE
  | rep : Nat → Nat → RE → RE
  | group : Nat → RE → RE
  | eos : RE

/-- Captured groups: group number paired with the captured characters,
most recent first (later captures of the same group shadow earlier ones,
as in CPython). -/
abbrev Caps := List (Nat × List Char)

/-- `\w` — ASCII word character (the corpus text in every claim is ASCII). -/
def isWordChar (c : Char) : Bool :=
  ('a' ≤ c && c ≤ 'z') || ('A' ≤ c && c ≤ 'Z') || ('0' ≤ c && c ≤ '9') || c = '_'

/-- One backtracking step.  `k` is the continuation receiving the remaining
suffix and the captures; the first `some` produced in CPython's preference
order wins.  `fuel` bounds the nesting depth (sufficient fuel is supplied by
the entry points; every use in a theorem is on a concrete input). -/
def mtch (dotall : Bool) (fuel : Nat) (re : RE) (s : List Char) (caps : Caps)
    (k : List Char → Caps → Option (List Char × Caps)) : Option (List Char × Caps) :=
  match fuel with
  | 0 => none
  | fuel + 1 =>
    match re with
    | .eps => k s caps
    | .lit c =>
        match s with
        | [] => none
        | x :: xs => if pyLowerChar x = pyLowerChar c then k xs caps else none
    | .cls cs =>
        match s with
        | [] => none
        | x :: xs =>
            if cs.any (fun c => pyLowerChar x = pyLowerChar c) then k xs caps else none
    | .any =>
        match s with
        | [] => none
        | x :: xs => if dotall || x ≠ '\n' then k xs caps else none
    | .wordc =>
        match s with
        | [] => none
        | x :: xs => if isWordChar x then k xs caps else none
    | .spacec =>
        match s with
        | [] => none
        | x :: xs => if pyIsSpace x then k xs caps else none
    | .seq a b => mtch dotall fuel a s caps (fun s' c' => mtch dotall fuel b s' c' k)
    | .alt a b =>
        match mtch dotall fuel a s caps k with
        | some r => some r
        | none => mtch dotall fuel b s caps k
    | .starG a =>
        match mtch dotall fuel a s caps (fun s' c' =>
                if s'.length < s.length then mtch dotall fuel (.starG a) s' c' k
                else none) with
        | some r => some r
        | none => k s caps
    | .starL a =>
        match k s caps with
        | some r => some r
        | none =>
            mtch dotall fuel a s caps (fun s' c' =>
              if s'.length < s.length then mtch dotall fuel (.starL a) s' c' k
              else none)
    | .optG a =>
        match mtch dotall fuel a s caps k with
        | some r => some r
        | none => k s caps
    | .rep lo hi a =>
        match lo with
        | n + 1 =>
            mtch dotall fuel a s caps (fun s' c' =>
              mtch dotall fuel (.rep n (hi - 1) a) s' c' k)
        | 0 =>
            match hi with
            | 0 => k s caps
            | h + 1 =>
                match mtch dotall fuel a s caps (fun s' c' =>
                        if s'.length < s.length then mtch dotall fuel (.rep 0 h a) s' c' k
                        else none) with
                | some r => some r
                | none => k s caps
    | .group n a =>
        mtch dotall fuel a s caps (fun s' c' =>
          k s' ((n, s.take (s.length - s'.length)) :: c'))
    | .eos => if s.isEmpty || s = ['\n'] then k s caps else none

/-- One CPython match record: the matched text (`group(0)`), the captures
and the remaining suffix after the match. -/
structure MatchRec where
  matched : List Char
  caps : Caps
  rest : List Char

/-- Attempt a match anchored at the start of `s`. -/
def tryMatch (dotall : Bool) (re : RE) (s : List Char) : Option MatchRec :=
  match mtch dotall (s.length * 8 + 1024) re s [] (fun s' c' => some (s', c')) with
  | some (s', caps) => some ⟨s.take (s.length - s'.length), caps, s'⟩
  | none => none

/-- `re.finditer`: scan start positions left to right, yielding
non-overlapping matches; an empty match advances the scan by one. -/
def pyFinditerAux (dotall : Bool) (re : RE) : Nat → List Char → List MatchRec
  | 0, _ => []
  | fuel + 1, s =>
      match tryMatch dotall re s with
      | some m =>
          if m.matched.isEmpty then
            m :: (match s with
                  | [] => []
                  | _ :: tl => pyFinditerAux dotall re fuel tl)
          else
            m :: pyFinditerAux dotall re fuel m.rest
      | none =>
          match s with
          | [] => []
          | _ :: tl => pyFinditerAux dotall re fuel tl

/-- `re.finditer(pattern, text)` on a character list. -/
def pyFinditer (dotall : Bool) (re : RE) (s : List Char) : List MatchRec :=
  pyFinditerAux dotall re (s.length + 1) s

/-- `re.search(pattern, text)`: the first match, if any. -/
def pySearch (dotall : Bool) (re : RE) (s : List Char) : Option MatchRec :=
  (pyFinditer dotall re s).head?

/-- `match.group(n)` (`none` when the group did not participate). -/
def capGet (caps : Caps) (n : Nat) : Option (List Char) :=
  match caps with
  | [] => none
  | (m, v) :: rest => if m = n then some v else capGet rest n

/-- `match.lastindex`, as a natural number (`0` stands for Python's `None`;
in every pattern of the scripts all groups are mandatory, so the last
matched group is the highest-numbered one). -/
def lastindexNat (caps : Caps) : Nat :=
  caps.foldl (fun acc p => max acc p.1) 0

/-- Sequence a list of regexes. -/
def seqList : List RE → RE
  | [] => .eps
  | [r] => r
  | r :: rest => .seq r (seqList rest)

/-- Alternation of a non-empty list, preferring earlier entries. -/
def altList : List RE → RE
  | [] => .eps
  | [r] => r
  | r :: rest => .alt r (altList rest)

/-- A string literal regex. -/
def strRE (s : String) : RE := seqList (s.toList.map RE.lit)

/-- `.+?` (lazy). -/
def dotPlusLazy : RE := .seq .any (.starL .any)

/-- `\w+` (greedy). -/
def wordPlus : RE := .seq .wordc (.starG .wordc)

/-- `\s+` (greedy). -/
def spacePlus : RE := .seq .spacec (.starG .spacec)

/-- `\s*` (greedy). -/
def spaceStar : RE := .starG .spacec

end PyModel

/-! ## `mike-decision-tree-extractor.py` — relational extraction (claim C4)

The pattern tables of `extract_decision_patterns` (compiled with
`re.IGNORECASE | re.DOTALL`) and `extract_if_then_logic` (compiled with
`re.IGNORECASE` only), transcribed expression by expression, and the two
extraction passes.
-/

namespace DecisionTree

open PyModel

/-- `content[:n]` (also used for the other scripts' excerpt truncation). -/
def strTake (s : String) (n : Nat) : String :=
  String.mk (s.toList.take n)

/-- `[,\.]?` -/
def optPunct : RE := .optG (.cls [',', '.'])

/-- `(?:\.|$)` -/
def dotOrEnd : RE := .alt (.lit '.') .eos

/-- `r"if (?:you|we|i) (.+?), (?:then\s+)?(.+?)(?:\.|$)"` -/
def itp1 : RE := seqList [strRE "if ", altList [strRE "you", strRE "we", strRE "i"],
  strRE " ", .group 1 dotPlusLazy, strRE ", ",
  .optG (.seq (strRE "then") spacePlus), .group 2 dotPlusLazy, dotOrEnd]

/-- `r"when (.+?), (.+?)(?:\.|$)"` -/
def itp2 : RE := seqList [strRE "when ", .group 1 dotPlusLazy, strRE ", ",
  .group 2 dotPlusLazy, dotOrEnd]

/-- `r"(?:anytime|whenever) (.+?), (.+?)(?:\.|$)"` -/
def itp3 : RE := seqList [altList [strRE "anytime", strRE "whenever"], strRE " ",
  .group 1 dotPlusLazy, strRE ", ", .group 2 dotPlusLazy, dotOrEnd]

/-- `r"(.+?) \? (.+?) : (.+?)(?:\.|$)"` (ternary logic) -/
def itp4 : RE := seqList [.group 1 dotPlusLazy, strRE " ? ", .group 2 dotPlusLazy,
  strRE " : ", .group 3 dotPlusLazy, dotOrEnd]

/-- `r"if (.+?)[,\.]?\s*(?:then\s+)?(.+?)(?:\.|$)"` -/
def ca1 : RE := seqList [strRE "if ", .group 1 dotPlusLazy, optPunct, spaceStar,
  .optG (.seq (strRE "then") spacePlus), .group 2 dotPlusLazy, dotOrEnd]

/-- `r"when (.+?)[,\.]?\s*(?:i|we|you)\s+(.+?)(?:\.|$)"` -/
def ca2 : RE := seqList [strRE "when ", .group 1 dotPlusLazy, optPunct, spaceStar,
  altList [strRE "i", strRE "we", strRE "you"], spacePlus, .group 2 dotPlusLazy, dotOrEnd]

/-- `r"(?:every time|whenever) (.+?)[,\.]?\s*(?:i|we)\s+(.+?)(?:\.|$)"` -/
def ca3 : RE := seqList [altList [strRE "every time", strRE "whenever"], strRE " ",
  .group 1 dotPlusLazy, optPunct, spaceStar, altList [strRE "i", strRE "we"],
  spacePlus, .group 2 dotPlusLazy, dotOrEnd]

/-- `r"(?:the problem is|issue is) (.+?)[,\.]?\s*so (.+?)(?:\.|$)"` -/
def ps1 : RE := seqList [altList [strRE "the problem is", strRE "issue is"], strRE " ",
  .group 1 dotPlusLazy, optPunct, spaceStar, strRE "so ", .group 2 dotPlusLazy, dotOrEnd]

/-- `r"(.+?) (?:sucks|is broken)[,\.]?\s*so (.+?)(?:\.|$)"` -/
def ps2 : RE := seqList [.group 1 dotPlusLazy, strRE " ",
  altList [strRE "sucks", strRE "is broken"], optPunct, spaceStar, strRE "so ",
  .group 2 dotPlusLazy, dotOrEnd]

/-- `r"(?:need to|have to) (.+?) (?:because|since) (.+?)(?:\.|$)"` -/
def ps3 : RE := seqList [altList [strRE "need to", strRE "have to"], strRE " ",
  .group 1 dotPlusLazy, strRE " ", altList [strRE "because", strRE "since"], strRE " ",
  .group 2 dotPlusLazy, dotOrEnd]

/-- `r"(?:chose|picked|went with) (.+?) (?:because|since) (.+?)(?:\.|$)"` -/
def cr1 : RE := seqList [altList [strRE "chose", strRE "picked", strRE "went with"],
  strRE " ", .group 1 dotPlusLazy, strRE " ", altList [strRE "because", strRE "since"],
  strRE " ", .group 2 dotPlusLazy, dotOrEnd]

/-- `r"instead of (.+?)[,\.]?\s*(?:i|we) (.+?)(?:\.|$)"` -/
def cr2 : RE := seqList [strRE "instead of ", .group 1 dotPlusLazy, optPunct, spaceStar,
  altList [strRE "i", strRE "we"], strRE " ", .group 2 dotPlusLazy, dotOrEnd]

/-- `r"(.+?) (?:makes sense|works better) because (.+?)(?:\.|$)"` -/
def cr3 : RE := seqList [.group 1 dotPlusLazy, strRE " ",
  altList [strRE "makes sense", strRE "works better"], strRE " because ",
  .group 2 dotPlusLazy, dotOrEnd]

/-- The `decision_indicators` table, in source order. -/
def decision_indicators : List (String × List RE) :=
  [("condition_action", [ca1, ca2, ca3]),
   ("problem_solution", [ps1, ps2, ps3]),
   ("choice_reasoning", [cr1, cr2, cr3])]

/-- The `if_then_patterns` table, in source order. -/
def if_then_patterns : List RE := [itp1, itp2, itp3, itp4]

/-- One entry of `self.decision_patterns`. -/
structure DecisionRec where
  ptype : String
  condition : String
  action : String
  full_context : String
  title : J

/-- One entry of `self.if_then_patterns` (the result list). -/
structure IfThenRec where
  ifCond : String
  thenAct : String
  elseAct : Option String
  context : String
deriving Repr, DecidableEq

/-- The inner pattern loop of `extract_decision_patterns` applied to one
message text (source lines 83–97): every `finditer` match of every rule with
`match.lastindex >= 2` appends one record with stripped group captures. -/
def decisionRecsOfText (text : String) (title : J) : List DecisionRec :=
  decision_indicators.flatMap fun pt =>
    pt.2.flatMap fun pat =>
      (pyFinditer true pat text.toList).filterMap fun m =>
        if lastindexNat m.caps ≥ 2 then
          some ⟨pt.1, String.mk (pyStripList ((capGet m.caps 1).getD [])),
                String.mk (pyStripList ((capGet m.caps 2).getD [])),
                strTake text 500, title⟩
        else none

/-- The inner pattern loop of `extract_if_then_logic` applied to one message
text (source lines 253–268). -/
def ifThenRecsOfText (text : String) : List IfThenRec :=
  if_then_patterns.flatMap fun pat =>
    (pyFinditer false pat text.toList).filterMap fun m =>
      if lastindexNat m.caps ≥ 2 then
        some ⟨String.mk (pyStripList ((capGet m.caps 1).getD [])),
              String.mk (pyStripList ((capGet m.caps 2).getD [])),
              (if lastindexNat m.caps ≥ 3 then
                 some (String.mk (pyStripList ((capGet m.caps 3).getD [])))
               else none),
              strTake text 200⟩
      else none

end DecisionTree

/-! ## Shared decoding helpers -/

namespace PyModel

/-- Python `==` between a JSON-decoded value and a string literal
(`role == 'user'`): equal only when the value is that string; comparison
between different types is `False`, never an error. -/
def jEqStr (x : J) (s : String) : Bool :=
  match x with
  | J.str t => t = s
  | _ => false

/-- `for part in parts:` — iterating a JSON-decoded value: a list yields its
elements, a string its one-character substrings, a dict its keys; anything
else raises `TypeError`. -/
def pyIter : J → Except String (List J)
  | J.arr l => Except.ok l
  | J.str s => Except.ok (s.toList.map fun c => J.str (String.mk [c]))
  | J.obj f => Except.ok (f.map fun kv => J.str kv.1)
  | _ => Except.error "TypeError: iteration"

/-- The `text_content` loop shared by `mike-decision-tree-extractor.py`
(`extract_message_content`), `mike-real-analysis.py`, `mike-final-analyzer.py`
and `chatgpt-chunk-processor.py` (`safe_extract_content`): keep string parts
and the `text` field of dict parts when truthy. -/
def textPartsPlain : List J → List J
  | [] => []
  | p :: rest =>
      match p with
      | J.str s => J.str s :: textPartsPlain rest
      | J.obj f =>
          if pyTruthy ((jLookup f "text").getD J.null) then
            (jLookup f "text").getD J.null :: textPartsPlain rest
          else textPartsPlain rest
      | _ => textPartsPlain rest

/-- The `content_text` loop of `chatgpt-analyzer.py` (`extract_messages`) and
`chatgpt-deep-analyzer.py` (`safe_extract_content`): like `textPartsPlain`
but with the `elif part.get('content'): append(str(part['content']))`
fallback. -/
def textPartsWithContent : List J → List J
  | [] => []
  | p :: rest =>
      match p with
      | J.str s => J.str s :: textPartsWithContent rest
      | J.obj f =>
          if pyTruthy ((jLookup f "text").getD J.null) then
            (jLookup f "text").getD J.null :: textPartsWithContent rest
          else if pyTruthy ((jLookup f "content").getD J.null) then
            J.str (pyStr ((jLookup f "content").getD J.null)) :: textPartsWithContent rest
          else textPartsWithContent rest
      | _ => textPartsWithContent rest

end PyModel

/-! ## `chatgpt-analyzer.py` — `ConversationAnalyzer.extract_messages`
(claims C2 and C9) -/

namespace ChatgptAnalyzer

open PyModel

/-- One element of the `messages` list built by `extract_messages`. -/
structure CAMsg where
  role : J
  content : String
  timestamp : J
  node_id : String

/-- Processing of a single `(node_id, node)` mapping entry by
`extract_messages` (source lines 41–65): `none` means the node contributed
no message, an `error` is a raised Python exception. -/
def extract_messages_node (kv : String × J) : Except String (Option CAMsg) := do
  let node := kv.2
  let msgv ← pyGet node "message" J.null
  if pyTruthy msgv then
    let contentv ← pyGet msgv "content" J.null
    if pyTruthy contentv then
      let contentv' ← pyIndex msgv "content"
      let partsv ← pyGet contentv' "parts" J.null
      if pyTruthy partsv then
        let partsv' ← (pyIndex msgv "content" >>= fun c => pyIndex c "parts")
        let parts ← pyIter partsv'
        let ctexts := textPartsWithContent parts
        if ctexts.isEmpty then
          pure none
        else do
          let authorv ← pyIndex msgv "author"
          let rolev ← pyIndex authorv "role"
          let contentStr ← pyJoinSpace ctexts
          let ts ← pyGet msgv "create_time" J.null
          pure (some ⟨rolev, contentStr, ts, kv.1⟩)
      else pure none
    else pure none
  else pure none

/-- The node loop of `extract_messages`, in mapping iteration order. -/
def extract_messages_nodes : List (String × J) → Except String (List CAMsg)
  | [] => Except.ok []
  | kv :: rest => do
      let head ← extract_messages_node kv
      let tail ← extract_messages_nodes rest
      pure (match head with
            | some m => m :: tail
            | none => tail)

/-- `ConversationAnalyzer.extract_messages(conversation)`. -/
def extract_messages (conversation : J) : Except String (List CAMsg) := do
  let mapping ← pyGet conversation "mapping" (J.obj [])
  let items ← pyItems mapping
  extract_messages_nodes items

end ChatgptAnalyzer

/-! ## `chatgpt-chunk-processor.py` — `extract_user_content` (claims C2, C5) -/

namespace ChunkProcessor

open PyModel

/-- Processing of one mapping entry by `extract_user_content`
(source lines 98–112): `none` when the node is skipped, otherwise the
extracted user message text. -/
def extract_user_content_node (node : J) : Except String (Option String) := do
  if !pyTruthy node then
    pure none
  else do
    let msgv ← pyGet node "message" J.null
    if !pyTruthy msgv then
      pure none
    else do
      let authorv ← pyGet msgv "author" (J.obj [])
      if pyTruthy authorv then do
        let rolev ← pyGet authorv "role" J.null
        if jEqStr rolev "user" then do
          let contentv ← pyGet msgv "content" (J.obj [])
          let partsv ← pyGet contentv "parts" (J.arr [])
          if pyTruthy partsv then do
            let parts ← pyIter partsv
            let contentText ← pyJoinSpace (textPartsPlain parts)
            if contentText ≠ "" ∧ contentText.length > 50 then
              pure (some contentText)
            else pure none
          else pure none
        else pure none
      else pure none

/-- The node loop of `extract_user_content`, in mapping iteration order. -/
def extract_user_content_nodes : List (String × J) → Except String (List String)
  | [] => Except.ok []
  | kv :: rest => do
      let head ← extract_user_content_node kv.2
      let tail ← extract_user_content_nodes rest
      pure (match head with
            | some m => m :: tail
            | none => tail)

/-- `ChunkProcessor.extract_user_content(conversation)`. -/
def extract_user_content (conversation : J) : Except String (List String) := do
  let mapping ← pyGet conversation "mapping" (J.obj [])
  let items ← pyItems mapping
  extract_user_content_nodes items

end ChunkProcessor

/-! ## `mike-real-analysis.py` — `extract_mike_messages` (claim C3) -/

namespace RealAnalysis

open PyModel

/-- One element of the list returned by `extract_mike_messages`. -/
structure MRMsg where
  content : String
  timestamp : J
  parent : J

/-- Processing of one mapping entry by `extract_mike_messages`
(source lines 37–60). -/
def extract_mike_messages_node (node : J) : Except String (Option MRMsg) := do
  if !pyTruthy node then
    pure none
  else do
    let msgv ← pyGet node "message" J.null
    if !pyTruthy msgv then
      pure none
    else do
      let msgv' ← pyIndex node "message"
      let authorv ← pyGet msgv' "author" (J.obj [])
      let rolev ← pyGet authorv "role" J.null
      if jEqStr rolev "user" then do
        let contentv ← pyGet msgv' "content" (J.obj [])
        let partsv ← pyGet contentv "parts" (J.arr [])
        let parts ← pyIter partsv
        let fullText ← pyJoinSpace (textPartsPlain parts)
        if fullText ≠ "" ∧ fullText.length > 20 then do
          let ts ← pyGet msgv' "create_time" J.null
          let par ← pyGet node "parent" J.null
          pure (some ⟨fullText, ts, par⟩)
        else pure none
      else pure none

/-- The node loop of `extract_mike_messages`. -/
def extract_mike_messages_nodes : List (String × J) → Except String (List MRMsg)
  | [] => Except.ok []
  | kv :: rest => do
      let head ← extract_mike_messages_node kv.2
      let tail ← extract_mike_messages_nodes rest
      pure (match head with
            | some m => m :: tail
            | none => tail)

/-- `RealAnalyzer.extract_mike_messages(conv)`. -/
def extract_mike_messages (conv : J) : Except String (List MRMsg) := do
  let mapping ← pyGet conv "mapping" (J.obj [])
  let items ← pyItems mapping
  extract_mike_messages_nodes items

end RealAnalysis

/-! ## `mike-final-analyzer.py` — extraction, temporal aggregation and
insight dedup (claims C3, C8, C10) -/

namespace FinalAnalyzer

open PyModel DecisionTree

/-- One element of `self.all_mike_messages`. -/
structure FAMsg where
  content : String
  title : J
  timestamp : J
  length : Nat

/-- Processing of one mapping entry inside `load_and_extract_all`
(source lines 35–64). -/
def load_extract_node (title create_time node : J) : Except String (Option FAMsg) := do
  if !pyTruthy node then
    pure none
  else do
    let msgv ← pyGet node "message" J.null
    if !pyTruthy msgv then
      pure none
    else do
      let authorv ← pyGet msgv "author" (J.obj [])
      let rolev ← pyGet authorv "role" J.null
      if jEqStr rolev "user" then do
        let contentv ← pyGet msgv "content" (J.obj [])
        let partsv ← pyGet contentv "parts" (J.arr [])
        let parts ← pyIter partsv
        let joined ← pyJoinSpace (textPartsPlain parts)
        let fullText := pyStrip joined
        if fullText ≠ "" ∧ fullText.length > 20 then do
          let ts ← pyGet msgv "create_time" create_time
          pure (some ⟨fullText, title, ts, fullText.length⟩)
        else pure none
      else pure none

/-- The node loop of `load_and_extract_all` for one conversation. -/
def load_extract_nodes (title create_time : J) :
    List (String × J) → Except String (List FAMsg)
  | [] => Except.ok []
  | kv :: rest => do
      let head ← load_extract_node title create_time kv.2
      let tail ← load_extract_nodes title create_time rest
      pure (match head with
            | some m => m :: tail
            | none => tail)

/-- The messages contributed by one conversation in `load_and_extract_all`. -/
def load_extract_conv (conv : J) : Except String (List FAMsg) := do
  let title ← pyGet conv "title" (J.str "Unknown")
  let create_time ← pyGet conv "create_time" (J.num 0)
  let mapping ← pyGet conv "mapping" (J.obj [])
  let items ← pyItems mapping
  load_extract_nodes title create_time items

/-- `load_and_extract_all` over the already-decoded conversation list
(`self.all_mike_messages` after the loop). -/
def load_and_extract_all : List J → Except String (List FAMsg)
  | [] => Except.ok []
  | conv :: rest => do
      let ms ← load_extract_conv conv
      let tail ← load_and_extract_all rest
      pure (ms ++ tail)

/-- Civil date from days since 1970-01-01 (Howard Hinnant's
`civil_from_days`); returns `(year, month)`.  Models
`datetime.fromtimestamp` under the UTC time zone (CPython uses the process
time zone; every concrete input in this file is far from a month boundary). -/
def civilYM (z0 : Int) : Int × Nat :=
  let z := z0 + 719468
  let era : Int := Int.ediv z 146097
  let doe : Nat := (z - era * 146097).toNat
  let yoe : Nat := (doe - doe / 1460 + doe / 36524 - doe / 146096) / 365
  let y : Int := (yoe : Int) + era * 400
  let doy : Nat := doe - (365 * yoe + yoe / 4 - yoe / 100)
  let mp : Nat := (5 * doy + 2) / 153
  let m : Nat := if mp < 10 then mp + 3 else mp - 9
  (if m ≤ 2 then y + 1 else y, m)

/-- Zero-padded two-digit month. -/
def pad2 (m : Nat) : String :=
  if m < 10 then "0" ++ toString m else toString m

/-- `datetime.fromtimestamp(ts).strftime('%Y-%m')` (UTC model). -/
def monthKeyOfEpoch (ts : Int) : String :=
  let days : Int := Int.ediv ts 86400
  let ym := civilYM days
  toString ym.1 ++ "-" ++ pad2 ym.2

/-- The timestamp value fed to `datetime.fromtimestamp` must be a number
(`True`/`False` count as `1`/`0`); anything else raises `TypeError`. -/
def jNumVal : J → Except String Int
  | J.num n => Except.ok n
  | J.bool b => Except.ok (if b then 1 else 0)
  | _ => Except.error "TypeError: fromtimestamp"

/-- A Counter, as an insertion-ordered association list. -/
abbrev Counter := List (String × Nat)

/-- `counter[key] += 1`. -/
def counterInc (c : Counter) (k : String) : Counter :=
  match c with
  | [] => [(k, 1)]
  | (k', n) :: rest => if k' = k then (k', n + 1) :: rest else (k', n) :: counterInc rest k

/-- One `monthly_data` bucket (the `avg_length` slot of the source dict is
only written while reporting and is omitted). -/
structure MonthlyBucket where
  messages : List FAMsg
  key_topics : Counter

/-- The `monthly_data` mapping, in insertion order. -/
abbrev Monthly := List (String × MonthlyBucket)

/-- Update the bucket at `month` (creating it empty first, as the
`defaultdict` does). -/
def monthlyUpdate (m : Monthly) (month : String) (f : MonthlyBucket → MonthlyBucket) :
    Monthly :=
  match m with
  | [] => [(month, f ⟨[], []⟩)]
  | (k, b) :: rest =>
      if k = month then (k, f b) :: rest else (k, b) :: monthlyUpdate rest month f

/-- The per-message body of `track_evolution` (source lines 134–149). -/
def track_evolution_step (m : Monthly) (msg : FAMsg) : Except String Monthly := do
  if pyTruthy msg.timestamp then do
    let ts ← jNumVal msg.timestamp
    let month := monthKeyOfEpoch ts
    let content := pyLower msg.content
    let upd : MonthlyBucket → MonthlyBucket := fun b =>
      let b := { b with messages := b.messages ++ [msg] }
      let b := if pyInStr "automat" content then
                 { b with key_topics := counterInc b.key_topics "automation" } else b
      let b := if pyInStr "build" content then
                 { b with key_topics := counterInc b.key_topics "building" } else b
      let b := if pyInStr "learn" content then
                 { b with key_topics := counterInc b.key_topics "learning" } else b
      if pyInStr "system" content || pyInStr "clubos" content then
        { b with key_topics := counterInc b.key_topics "systems" } else b
    pure (monthlyUpdate m month upd)
  else
    pure m

/-- `track_evolution`'s aggregation loop over `self.all_mike_messages`. -/
def track_evolution : List FAMsg → Except String Monthly :=
  go []
where
  go (m : Monthly) : List FAMsg → Except String Monthly
  | [] => Except.ok m
  | msg :: rest => do
      let m' ← track_evolution_step m msg
      go m' rest

end FinalAnalyzer

namespace FinalAnalyzer

open PyModel DecisionTree

/-- `r"realized (?:that )?(.{20,100})"` -/
def ip1 : RE := seqList [strRE "realized ", .optG (strRE "that "), .group 1 (.rep 20 100 .any)]

/-- `r"the (?:thing|point|idea) is (.{20,100})"` -/
def ip2 : RE := seqList [strRE "the ", altList [strRE "thing", strRE "point", strRE "idea"],
  strRE " is ", .group 1 (.rep 20 100 .any)]

/-- `r"what (?:i've|we've) learned (.{20,100})"` -/
def ip3 : RE := seqList [strRE "what ", altList [strRE "i\x27ve", strRE "we\x27ve"],
  strRE " learned ", .group 1 (.rep 20 100 .any)]

/-- `r"turns out (.{20,100})"` -/
def ip4 : RE := seqList [strRE "turns out ", .group 1 (.rep 20 100 .any)]

/-- `r"(?:basically|essentially) (.{20,100})"` -/
def ip5 : RE := seqList [altList [strRE "basically", strRE "essentially"], strRE " ",
  .group 1 (.rep 20 100 .any)]

/-- `r"the way i see it (.{20,100})"` -/
def ip6 : RE := seqList [strRE "the way i see it ", .group 1 (.rep 20 100 .any)]

/-- The `insight_patterns` table, in source order. -/
def insight_patterns : List RE := [ip1, ip2, ip3, ip4, ip5, ip6]

/-- One entry of the `insights` list in `find_unique_insights`. -/
structure Insight where
  insight : String
  title : J
  timestamp : J

/-- The `insights` collection loop of `find_unique_insights`
(source lines 176–189). -/
def insightsOf (msgs : List FAMsg) : List Insight :=
  msgs.flatMap fun msg =>
    insight_patterns.flatMap fun pat =>
      (pyFinditer false pat msg.content.toList).map fun m =>
        let raw := if lastindexNat m.caps ≠ 0 then (capGet m.caps 1).getD [] else m.matched
        ⟨String.mk (pyStripList raw), msg.title, msg.timestamp⟩

/-- The printing loop of `find_unique_insights` (source lines 192–199): over
the first 30 insights, keep one whose lowercased text was not seen before
and is longer than 30 characters; returns the printed insights in order. -/
def printedInsights (insights : List Insight) : List Insight :=
  go [] (insights.take 30)
where
  go (seen : List String) : List Insight → List Insight
  | [] => []
  | item :: rest =>
      let low := pyLower item.insight
      if low ∉ seen ∧ low.length > 30 then
        item :: go (low :: seen) rest
      else
        go seen rest

/-- `find_unique_insights` end to end: extracted messages to printed
insights. -/
def find_unique_insights (msgs : List FAMsg) : List Insight :=
  printedInsights (insightsOf msgs)

end FinalAnalyzer

/-! ## `chatgpt-analyzer.py` — `extract_thinking_patterns` (claim C7) -/

namespace ChatgptAnalyzer

open PyModel DecisionTree

/-- `r'recurs\w+|loop|iterate|feedback'` -/
def reRecursive : RE := altList [.seq (strRE "recurs") wordPlus, strRE "loop",
  strRE "iterate", strRE "feedback"]

/-- `r'upstream|downstream|root cause|first principle'` -/
def reUpstream : RE := altList [strRE "upstream", strRE "downstream",
  strRE "root cause", strRE "first principle"]

/-- `r'modular|component|building block|compose'` -/
def reModular : RE := altList [strRE "modular", strRE "component",
  strRE "building block", strRE "compose"]

/-- `r'compress|simplif|abstract|distill'` -/
def reCompression : RE := altList [strRE "compress", strRE "simplif",
  strRE "abstract", strRE "distill"]

/-- `r'system|holistic|interconnect|ecosystem'` -/
def reSystem : RE := altList [strRE "system", strRE "holistic",
  strRE "interconnect", strRE "ecosystem"]

/-- `r'data|metric|measure|track|analyz'` -/
def reData : RE := altList [strRE "data", strRE "metric", strRE "measure",
  strRE "track", strRE "analyz"]

/-- The per-rule slice of `pattern_counts` / `pattern_examples`. -/
structure RuleState where
  count : Nat
  examples : List String
deriving Repr, DecidableEq

/-- The two defaultdicts of `extract_thinking_patterns`, at the six fixed
keys of the `patterns` table. -/
structure TPState where
  recursive_thinking : RuleState := ⟨0, []⟩
  upstream_logic : RuleState := ⟨0, []⟩
  modular_design : RuleState := ⟨0, []⟩
  compression : RuleState := ⟨0, []⟩
  system_thinking : RuleState := ⟨0, []⟩
  data_driven : RuleState := ⟨0, []⟩
deriving Repr, DecidableEq

/-- The per-rule body (source lines 163–167): `re.search` marks the rule as
fired at most once per message; at most one example, capped at three per
rule, is recorded with a `content[:300] + '...'` excerpt. -/
def ruleStep (re : RE) (content : String) (st : RuleState) : RuleState :=
  if (pySearch false re content.toList).isSome then
    { count := st.count + 1,
      examples :=
        if st.examples.length < 3 then st.examples ++ [strTake content 300 ++ "..."]
        else st.examples }
  else st

/-- The per-message body of `extract_thinking_patterns` (source
lines 159–167). -/
def tpMsgStep (st : TPState) (msg : CAMsg) : TPState :=
  if jEqStr msg.role "user" then
    { recursive_thinking := ruleStep reRecursive msg.content st.recursive_thinking,
      upstream_logic := ruleStep reUpstream msg.content st.upstream_logic,
      modular_design := ruleStep reModular msg.content st.modular_design,
      compression := ruleStep reCompression msg.content st.compression,
      system_thinking := ruleStep reSystem msg.content st.system_thinking,
      data_driven := ruleStep reData msg.content st.data_driven }
  else st

/-- `extract_thinking_patterns` over the decoded conversation list. -/
def extract_thinking_patterns (conversations : List J) : Except String TPState :=
  go {} conversations
where
  go (st : TPState) : List J → Except String TPState
  | [] => Except.ok st
  | conv :: rest => do
      let msgs ← extract_messages conv
      go (msgs.foldl tpMsgStep st) rest

end ChatgptAnalyzer

/-! ## `mike-deep-dive-analyzer.py` — `extract_full_conversation` (claims C1, C9) -/

namespace DeepDive

open PyModel

mutual

/-- Python `==` between JSON-decoded values, used for dictionary keys
(`nodes_by_parent` is keyed by `node.get('parent')` values, i.e. strings or
`None`).  `True == 1` as in Python; containers compare elementwise (the
scripts never use containers as keys, so CPython's unordered dict
comparison is irrelevant here). -/
def jEqb : J → J → Bool
  | J.null, J.null => true
  | J.bool a, J.bool b => a = b
  | J.bool a, J.num n => (if a then (1 : Int) else 0) = n
  | J.num n, J.bool a => n = (if a then (1 : Int) else 0)
  | J.num a, J.num b => a = b
  | J.str a, J.str b => a = b
  | J.arr a, J.arr b => jEqbList a b
  | J.obj a, J.obj b => jEqbFields a b
  | _, _ => false

/-- Elementwise `==` on list values. -/
def jEqbList : List J → List J → Bool
  | [], [] => true
  | x :: xs, y :: ys => jEqb x y && jEqbList xs ys
  | _, _ => false

/-- Fieldwise `==` on object values. -/
def jEqbFields : List (String × J) → List (String × J) → Bool
  | [], [] => true
  | (k, v) :: xs, (k', v') :: ys => k = k' && jEqb v v' && jEqbFields xs ys
  | _, _ => false

end

/-- `Python == between a `str` (a mapping key) and a `tuple`
(a `(node_id, node)` entry of `nodes_by_parent[None]`): values of different
types are never equal, so this is always `False` — the root-detection test
`n in nodes_by_parent[None]` of source line 81 can therefore never
succeed. -/
def pyEqStrPair (_n : String) (_p : String × J) : Bool := false

/-- The `nodes_by_parent` defaultdict: parent value to the list of
`(node_id, node)` pairs, buckets in first-touch order. -/
abbrev Buckets := List (J × List (String × J))

/-- `nodes_by_parent.get(key, [])` / `nodes_by_parent[key]` read. -/
def bucketGet (b : Buckets) (k : J) : List (String × J) :=
  match b with
  | [] => []
  | (k', vs) :: rest => if jEqb k' k then vs else bucketGet rest k

/-- `nodes_by_parent[parent].append((node_id, node))`. -/
def bucketAdd (b : Buckets) (k : J) (v : String × J) : Buckets :=
  match b with
  | [] => [(k, [v])]
  | (k', vs) :: rest =>
      if jEqb k' k then (k', vs ++ [v]) :: rest else (k', vs) :: bucketAdd rest k v

/-- The first pass of `extract_full_conversation` (source lines 44–47):
organize message-bearing nodes by parent. -/
def buildBuckets : List (String × J) → Buckets → Except String Buckets
  | [], b => Except.ok b
  | (nid, node) :: rest, b => do
      if pyTruthy node then do
        let msgv ← pyGet node "message" J.null
        if pyTruthy msgv then do
          let parent ← pyGet node "parent" J.null
          buildBuckets rest (bucketAdd b parent (nid, node))
        else buildBuckets rest b
      else buildBuckets rest b

/-- One element of the `messages` list of `extract_full_conversation`. -/
structure DDMsg where
  role : J
  content : String
  depth : Nat
  timestamp : J

/-- The recursive `traverse` of source lines 50–78, as a loop over a child
list; descending into a child consumes one unit of fuel (CPython's
recursion limit, which a cyclic export would hit, maps to fuel
exhaustion). -/
def traverseGo (bkts : Buckets) : Nat → List (String × J) → Nat →
    Except String (List DDMsg)
  | _, [], _ => Except.ok []
  | fuel, (cid, cnode) :: rest, depth => do
      let msgv ← pyGet cnode "message" (J.obj [])
      let authorv ← pyGet msgv "author" (J.obj [])
      let rolev ← pyGet authorv "role" (J.str "unknown")
      let contentv ← pyGet msgv "content" (J.obj [])
      let partsv ← pyGet contentv "parts" (J.arr [])
      let parts ← pyIter partsv
      let fullText ← pyJoinSpace (textPartsPlain parts)
      let ts ← pyGet msgv "create_time" J.null
      let selfMsgs : List DDMsg :=
        if fullText ≠ "" then [⟨rolev, fullText, depth, ts⟩] else []
      let sub ←
        match fuel with
        | 0 => Except.error "RecursionError"
        | f + 1 => traverseGo bkts f (bucketGet bkts (J.str cid)) (depth + 1)
      let tail ← traverseGo bkts fuel rest depth
      pure (selfMsgs ++ sub ++ tail)
termination_by fuel children _ => (fuel, children.length)

/-- `traverse(node_id, depth)`. -/
def traverse (bkts : Buckets) (fuel : Nat) (node_id : String) (depth : Nat) :
    Except String (List DDMsg) :=
  traverseGo bkts fuel (bucketGet bkts (J.str node_id)) depth

/-- The root loop of source lines 82–83. -/
def rootsFold (bkts : Buckets) (fuel : Nat) : List String → Except String (List DDMsg)
  | [] => Except.ok []
  | r :: rest => do
      let m ← traverse bkts fuel r 0
      let t ← rootsFold bkts fuel rest
      pure (m ++ t)

/-- The result record of `extract_full_conversation`. -/
structure DDConv where
  title : J
  timestamp : J
  messages : List DDMsg
  total_messages : Nat

/-- `DeepDiveAnalyzer.extract_full_conversation(conv)`. -/
def extract_full_conversation (conv : J) : Except String DDConv := do
  let mapping ← pyGet conv "mapping" (J.obj [])
  let title ← pyGet conv "title" (J.str "Unknown")
  let timestamp ← pyGet conv "create_time" (J.num 0)
  let items ← pyItems mapping
  let bkts ← buildBuckets items []
  let root_nodes :=
    (items.map Prod.fst).filter fun n =>
      (bucketGet bkts J.null).any fun p => pyEqStrPair n p
  let msgs ← rootsFold bkts (items.length + 1) root_nodes
  pure ⟨title, timestamp, msgs, msgs.length⟩

end DeepDive

/-! ## `chatgpt-chunk-processor.py` — chunking and the per-chunk run
(claims C5, C6) -/

namespace ChunkProcessor

open PyModel DecisionTree FinalAnalyzer

/-- The loop of `range(start, stop, step)`, with structural fuel (any fuel
at least `stop - start` gives the range, since each step advances by at
least one). -/
def pyRangeGo (step : Nat) : Nat → Nat → Nat → List Nat
  | 0, _, _ => []
  | fuel + 1, start, stop =>
      if 0 < step ∧ start < stop then start :: pyRangeGo step fuel (start + step) stop
      else []

/-- Python `range(start, stop, step)` for a positive step (`range` with a
zero step raises `ValueError` in Python; the scripts only use the positive
chunk size 50, and every theorem carries a positivity hypothesis). -/
def pyRange (start stop step : Nat) : List Nat :=
  pyRangeGo step (stop - start) start stop

/-- The fuel is irrelevant once it covers the remaining gap. -/
theorem pyRangeGo_fuel (step : Nat) :
    ∀ fuel fuel' start stop, stop - start ≤ fuel → stop - start ≤ fuel' →
      pyRangeGo step fuel start stop = pyRangeGo step fuel' start stop := by
  intro fuel
  induction fuel with
  | zero =>
      intro fuel' start stop h h'
      cases fuel' with
      | zero => rfl
      | succ f' =>
          simp only [pyRangeGo]
          rw [if_neg (by omega)]
  | succ f ih =>
      intro fuel' start stop h h'
      cases fuel' with
      | zero =>
          simp only [pyRangeGo]
          rw [if_neg (by omega)]
      | succ f' =>
          simp only [pyRangeGo]
          by_cases hcond : 0 < step ∧ start < stop
          · rw [if_pos hcond, if_pos hcond]
            exact congrArg _ (ih f' (start + step) stop (by omega) (by omega))
          · rw [if_neg hcond, if_neg hcond]

/-- The defining recurrence of `pyRange`. -/
theorem pyRange_eq (start stop step : Nat) :
    pyRange start stop step =
      if 0 < step ∧ start < stop then start :: pyRange (start + step) stop step
      else [] := by
  unfold pyRange
  cases hgap : stop - start with
  | zero =>
      simp only [pyRangeGo]
      rw [if_neg (by omega)]
  | succ g =>
      simp only [pyRangeGo]
      by_cases hcond : 0 < step ∧ start < stop
      · rw [if_pos hcond, if_pos hcond]
        exact congrArg _
          (pyRangeGo_fuel step g (stop - (start + step)) (start + step) stop
            (by omega) (by omega))
      · rw [if_neg hcond, if_neg hcond]

/-- `[conversations[i:i+chunk_size] for i in range(0, total_convs, chunk_size)]`
(source line 30): Python's slice `l[i:i+c]` is drop `i`, take `c`. -/
def sliceChunks (l : List α) (c : Nat) : List (List α) :=
  (pyRange 0 l.length c).map fun i => (l.drop i).take c

/-- `r'upstream\s+\w+'` -/
def ut1 : RE := seqList [strRE "upstream", spacePlus, wordPlus]

/-- `r'recursive\s+\w+'` -/
def ut2 : RE := seqList [strRE "recursive", spacePlus, wordPlus]

/-- `r'modular\s+\w+'` -/
def ut3 : RE := seqList [strRE "modular", spacePlus, wordPlus]

/-- `r'compress\s+\w+'` -/
def ut4 : RE := seqList [strRE "compress", spacePlus, wordPlus]

/-- `r'\w+\s+as\s+(?:a\s+)?(?:lever|architecture|dimension)'` -/
def ut5 : RE := seqList [wordPlus, spacePlus, strRE "as", spacePlus,
  .optG (.seq (strRE "a") spacePlus),
  altList [strRE "lever", strRE "architecture", strRE "dimension"]]

/-- `r'(?:build|create)\s+(?:the|a)\s+\w+\s+(?:that|which)'` -/
def ut6 : RE := seqList [altList [strRE "build", strRE "create"], spacePlus,
  altList [strRE "the", strRE "a"], spacePlus, wordPlus, spacePlus,
  altList [strRE "that", strRE "which"]]

/-- `r'data\s+exhaust'` -/
def ut7 : RE := seqList [strRE "data", spacePlus, strRE "exhaust"]

/-- `r'temporal\s+\w+'` -/
def ut8 : RE := seqList [strRE "temporal", spacePlus, wordPlus]

/-- `r'delegation\s+(?:is|as)'` -/
def ut9 : RE := seqList [strRE "delegation", spacePlus, altList [strRE "is", strRE "as"]]

/-- `r'(?:zero|no)\s+\w+\s+(?:cost|friction|waste)'` -/
def ut10 : RE := seqList [altList [strRE "zero", strRE "no"], spacePlus, wordPlus,
  spacePlus, altList [strRE "cost", strRE "friction", strRE "waste"]]

/-- The `unique_patterns` table of `extract_unique_terms`, in source order. -/
def unique_patterns : List RE := [ut1, ut2, ut3, ut4, ut5, ut6, ut7, ut8, ut9, ut10]

/-- `extract_unique_terms(text)`: `re.findall` per pattern, concatenated
(none of the patterns has a capturing group, so `findall` yields the full
matched text). -/
def extract_unique_terms (text : String) : List String :=
  unique_patterns.flatMap fun pat =>
    (pyFinditer false pat text.toList).map fun m => String.mk m.matched

/-- `contains_pattern(text, patterns)`. -/
def contains_pattern (text : String) (patterns : List String) : Bool :=
  patterns.any fun p => pyInStr p (pyLower text)

/-- One entry of the `chunk_patterns` / `global_patterns` lists. -/
structure CPItem where
  content : String
  title : J
  timestamp : J

/-- The accumulating state of `ChunkProcessor` (`self.global_patterns` at
its four fixed keys, and `self.unique_phrases`).  The
`automation_mindset` / `unique_terminology` lists are never appended to by
`process_chunk` but are part of the dict. -/
structure GlobalState where
  cognitive_strategies : List CPItem := []
  problem_solving : List CPItem := []
  automation_mindset : List CPItem := []
  unique_terminology : List CPItem := []
  unique_phrases : Counter := []

/-- The per-conversation data extracted by `process_chunk` before any state
is touched: title, timestamp and the user message texts (this is the only
fallible part of the loop body). -/
def convData (conv : J) : Except String (J × J × List String) := do
  let title ← pyGet conv "title" (J.str "Untitled")
  let timestamp ← pyGet conv "create_time" (J.num 0)
  let msgs ← extract_user_content conv
  pure (title, timestamp, msgs)

/-- The per-message body of `process_chunk` (source lines 67–87), acting on
the two chunk-local lists and the phrase counter. -/
def cpMsgStep (title timestamp : J)
    (acc : List CPItem × List CPItem × Counter) (msg : String) :
    List CPItem × List CPItem × Counter :=
  let acc :=
    if contains_pattern msg ["recursive", "upstream", "downstream", "compress", "abstract"]
    then (acc.1 ++ [⟨strTake msg 300, title, timestamp⟩], acc.2.1, acc.2.2)
    else acc
  let acc :=
    if contains_pattern msg ["automat", "system", "workflow", "process", "scale"]
    then (acc.1, acc.2.1 ++ [⟨strTake msg 300, title, timestamp⟩], acc.2.2)
    else acc
  (acc.1, acc.2.1, (extract_unique_terms msg).foldl counterInc acc.2.2)

/-- The conversation loop of `process_chunk` (source lines 60–87). -/
def cpConvFold (acc : List CPItem × List CPItem × Counter) :
    List J → Except String (List CPItem × List CPItem × Counter)
  | [] => Except.ok acc
  | conv :: rest => do
      let d ← convData conv
      cpConvFold (d.2.2.foldl (cpMsgStep d.1 d.2.1) acc) rest

/-- `process_chunk(conversations, chunk_idx)`: run the conversation loop
with empty chunk-local lists, then extend `self.global_patterns`
(source lines 89–91). -/
def process_chunk (st : GlobalState) (convs : List J) : Except String GlobalState := do
  let acc ← cpConvFold ([], [], st.unique_phrases) convs
  pure { st with
         cognitive_strategies := st.cognitive_strategies ++ acc.1,
         problem_solving := st.problem_solving ++ acc.2.1,
         unique_phrases := acc.2.2 }

/-- The chunk loop of `process_all_chunks` (source lines 34–36). -/
def chunksFold (st : GlobalState) : List (List J) → Except String GlobalState
  | [] => Except.ok st
  | ch :: rest => do
      let st' ← process_chunk st ch
      chunksFold st' rest

/-- `process_all_chunks` over the already-decoded conversation list (the
final `consolidate_findings` call only renders this state to Markdown). -/
def process_all_chunks (conversations : List J) (chunk_size : Nat) :
    Except String GlobalState :=
  chunksFold {} (sliceChunks conversations chunk_size)

end ChunkProcessor

namespace DecisionTree

open PyModel

/-- `extract_message_content(parts)` followed by `' '.join` (source
lines 27–35). -/
def extract_message_content (parts : List J) : Except String String :=
  pyJoinSpace (textPartsPlain parts)

/-- The node loop of `extract_decision_patterns` for one conversation
(source lines 67–97): user messages longer than 50 characters are run
through the `decision_indicators` table. -/
def extract_decision_nodes (title : J) : List (String × J) → Except String (List DecisionRec)
  | [] => Except.ok []
  | (_, node) :: rest => do
      if !pyTruthy node then
        extract_decision_nodes title rest
      else do
        let msgv ← pyGet node "message" J.null
        if !pyTruthy msgv then
          extract_decision_nodes title rest
        else do
          let authorv ← pyGet msgv "author" (J.obj [])
          let rolev ← pyGet authorv "role" J.null
          if jEqStr rolev "user" then do
            let contentv ← pyGet msgv "content" (J.obj [])
            let partsv ← pyGet contentv "parts" (J.arr [])
            let parts ← pyIter partsv
            let text ← extract_message_content parts
            let here := if text ≠ "" ∧ text.length > 50 then decisionRecsOfText text title else []
            let tail ← extract_decision_nodes title rest
            pure (here ++ tail)
          else extract_decision_nodes title rest

/-- `extract_decision_patterns` over the decoded conversation list
(`self.decision_patterns` afterwards). -/
def extract_decision_patterns : List J → Except String (List DecisionRec)
  | [] => Except.ok []
  | conv :: rest => do
      let mapping ← pyGet conv "mapping" (J.obj [])
      let title ← pyGet conv "title" (J.str "Unknown")
      let items ← pyItems mapping
      let here ← extract_decision_nodes title items
      let tail ← extract_decision_patterns rest
      pure (here ++ tail)

/-- The node loop of `extract_if_then_logic` for one conversation (source
lines 239–268): note there is no minimum-length filter here. -/
def extract_if_then_nodes : List (String × J) → Except String (List IfThenRec)
  | [] => Except.ok []
  | (_, node) :: rest => do
      if !pyTruthy node then
        extract_if_then_nodes rest
      else do
        let msgv ← pyGet node "message" J.null
        if !pyTruthy msgv then
          extract_if_then_nodes rest
        else do
          let authorv ← pyGet msgv "author" (J.obj [])
          let rolev ← pyGet authorv "role" J.null
          if jEqStr rolev "user" then do
            let contentv ← pyGet msgv "content" (J.obj [])
            let partsv ← pyGet contentv "parts" (J.arr [])
            let parts ← pyIter partsv
            let text ← extract_message_content parts
            let tail ← extract_if_then_nodes rest
            pure (ifThenRecsOfText text ++ tail)
          else extract_if_then_nodes rest

/-- `extract_if_then_logic` over the decoded conversation list (the source
scans `self.conversations[:200]`). -/
def extract_if_then_logic (conversations : List J) : Except String (List IfThenRec) :=
  go (conversations.take 200)
where
  go : List J → Except String (List IfThenRec)
  | [] => Except.ok []
  | conv :: rest => do
      let mapping ← pyGet conv "mapping" (J.obj [])
      let items ← pyItems mapping
      let here ← extract_if_then_nodes items
      let tail ← go rest
      pure (here ++ tail)

end DecisionTree

/-! ## Concrete conversation records used by the theorems -/

namespace Fixtures

open PyModel

/-- A fully well-formed node with one text part. -/
def mkNode (role text : String) : J :=
  J.obj [("message", J.obj [("author", J.obj [("role", J.str role)]),
          ("content", J.obj [("parts", J.arr [J.str text])])]), ("parent", J.null)]

/-- A conversation with one user message of exactly 20 characters. -/
def conv20 : J := J.obj [("title", J.str "t"),
  ("mapping", J.obj [("n1", mkNode "user" "aaaaaaaaaaaaaaaaaaaa")])]

/-- A conversation with user messages of 20, 25 and 19 characters. -/
def conv202519 : J := J.obj [("title", J.str "t"),
  ("mapping", J.obj [("n1", mkNode "user" "aaaaaaaaaaaaaaaaaaaa"),
                     ("n2", mkNode "user" "aaaaaaaaaaaaaaaaaaaaaaaaa"),
                     ("n3", mkNode "user" "aaaaaaaaaaaaaaaaaaa")])]

/-- A node whose message has content parts but no `author` field. -/
def nodeNoAuthor : J := J.obj [("message",
  J.obj [("content", J.obj [("parts", J.arr [J.str "hello world"])])])]

/-- A conversation containing only `nodeNoAuthor`. -/
def convNoAuthor : J := J.obj [("mapping", J.obj [("n1", nodeNoAuthor)])]

/-- A child node (parent `"root"`) with a user message. -/
def nodeChild : J := J.obj [("message", J.obj [("author", J.obj [("role", J.str "user")]),
  ("content", J.obj [("parts", J.arr [J.str "child message"])])]), ("parent", J.str "root")]

/-- A root node with a user message. -/
def nodeRoot : J := J.obj [("message", J.obj [("author", J.obj [("role", J.str "user")]),
  ("content", J.obj [("parts", J.arr [J.str "root message"])])])]

/-- A conversation whose mapping iteration order lists the child before its
parent. -/
def convChildFirst : J := J.obj [("mapping", J.obj [("child", nodeChild), ("root", nodeRoot)])]

/-- The Scenario A message text. -/
def s4 : String := "if the system is broken, I rebuild it"

/-- A conversation whose single user message is the Scenario A text. -/
def convScenarioA : J := J.obj [("title", J.str "T"),
  ("mapping", J.obj [("n1", mkNode "user" s4)])]

/-- A conversation with one user message in which the `data_driven`
expression `r'data|metric|measure|track|analyz'` matches at two distinct
positions. -/
def convDataTwice : J := J.obj [("mapping",
  J.obj [("n1", mkNode "user" "data flows into data lakes")])]

/-- An extracted message whose text differs from `msgSingleSpace` only by a
doubled internal space. -/
def msgDoubleSpace : FinalAnalyzer.FAMsg :=
  ⟨"basically the  whole system builds itself end to end", J.str "t", J.num 1, 52⟩

/-- An extracted message with the single-space variant of the text. -/
def msgSingleSpace : FinalAnalyzer.FAMsg :=
  ⟨"basically the whole system builds itself end to end", J.str "t", J.num 1, 51⟩

/-- A conversation, with creation timestamp `T`, holding one long-enough
user message whose own `create_time` is absent. -/
def convInherit (T : Int) : J := J.obj [("title", J.str "t"), ("create_time", J.num T),
  ("mapping", J.obj [("n1", mkNode "user" "this message is long enough ok")])]

/-- A conversation whose single message has a string `content` value:
processing it raises `AttributeError` (`content.get('parts')`). -/
def convBad : J := J.obj [("mapping", J.obj [("n1",
  J.obj [("message", J.obj [("author", J.obj [("role", J.str "user")]),
          ("content", J.str "oops")])])])]

/-- A well-formed conversation whose user message fires the
`problem_solving` chunk pattern (`'automat'`). -/
def convGood : J := J.obj [("title", J.str "g"), ("mapping", J.obj [("n1",
  mkNode "user" "we should automat everything in this long enough message to pass the filter")])]

end Fixtures

/-! ## Generic helper lemmas about `Except` -/

namespace Helpers

/-- Success of a bind splits into successes of both stages. -/
theorem exceptBind_ok {ε α β : Type} {x : Except ε α} {f : α → Except ε β} {b : β} :
    x >>= f = .ok b ↔ ∃ a, x = .ok a ∧ f a = .ok b := by
  cases x <;> simp [Bind.bind, Except.bind]

/-- `pure` is `ok`. -/
theorem exceptPure_ok {ε α : Type} {a b : α} :
    (pure a : Except ε α) = .ok b ↔ a = b := by
  simp [pure, Except.pure]

/-- `dropWhile` never lengthens a list. -/
theorem length_dropWhile_le {α : Type} (p : α → Bool) (l : List α) :
    (l.dropWhile p).length ≤ l.length := by
  induction l with
  | nil => simp
  | cons a l ih =>
      by_cases h : p a = true
      · rw [List.dropWhile_cons_of_pos h, List.length_cons]; omega
      · rw [List.dropWhile_cons_of_neg (by simpa using h)]

/-- Success of a functorial map splits. -/
theorem exceptMap_ok {ε α β : Type} {x : Except ε α} {f : α → β} {b : β} :
    f <$> x = .ok b ↔ ∃ a, x = .ok a ∧ f a = b := by
  cases x <;> simp [Functor.map, Except.map]

/-- An error propagates through a bind. -/
theorem exceptBind_error {ε α β : Type} {x : Except ε α} {f : α → Except ε β} {e : ε}
    (h : x = .error e) : x >>= f = .error e := by
  subst h; rfl

end Helpers

/-! ## Claim C4 — the Scenario A relation extraction -/

open PyModel Fixtures in
/-- C4 (counterexample): on the message text
`"if the system is broken, I rebuild it"` the `if_then` table of
`extract_if_then_logic` produces no record at all, and the only record the
`extract_decision_patterns` table produces is a `condition_action` record
with left capture `"t"` and right capture
`"he system is broken, I rebuild it"` — not the claimed
`"the system is broken"` / `"I rebuild it"`. -/
theorem C4_counterexample :
    DecisionTree.ifThenRecsOfText s4 = [] ∧
    (DecisionTree.decisionRecsOfText s4 (J.str "T")).map
        (fun r => (r.ptype, r.condition, r.action)) =
      [("condition_action", "t", "he system is broken, I rebuild it")] := by
  constructor <;> rfl

open PyModel Fixtures in
/-- C4 (amended): the relational extractor yields no `if_then` record for
the Scenario A text (none of the four `if_then_patterns` matches, since the
first requires `if you/we/i`); the `condition_action` rule
`r"if (.+?)[,\.]?\s*(?:then\s+)?(.+?)(?:\.|$)"` matches with the lazy
captures `left = "t"` and `right = "he system is broken, I rebuild it"`;
and in the full passes a conversation with this single 37-character user
message produces no record whatsoever, because `extract_decision_patterns`
only scans messages longer than 50 characters. -/
theorem C4_scenarioA_extraction :
    (DecisionTree.decisionRecsOfText s4 (J.str "T")).map
        (fun r => (r.ptype, r.condition, r.action)) =
      [("condition_action", "t", "he system is broken, I rebuild it")] ∧
    DecisionTree.ifThenRecsOfText s4 = [] ∧
    DecisionTree.extract_if_then_logic [convScenarioA] = .ok [] ∧
    DecisionTree.extract_decision_patterns [convScenarioA] = .ok [] := by
  refine ⟨rfl, rfl, rfl, rfl⟩

/-! ## Claim C3 — minimum message length -/

open PyModel Fixtures in
/-- C3 (counterexample): with the minimum length configured at 20
(`mike-real-analysis.py` line 55, `len(full_text) > 20`), a conversation
whose single user message has exactly 20 characters decodes to the empty
message list: the length-20 message is dropped, contradicting the claim
that it is retained. -/
theorem C3_counterexample :
    RealAnalysis.extract_mike_messages conv20 = .ok [] := by rfl


open PyModel Helpers in
/-- Node-level: an emitted message passed the strict `> 20` filter. -/
theorem RealAnalysis.node_emits_gt20 {node : J} {m : RealAnalysis.MRMsg}
    (h : RealAnalysis.extract_mike_messages_node node = .ok (some m)) :
    m.content.length > 20 := by
  unfold RealAnalysis.extract_mike_messages_node at h
  repeat'
    first
    | (rw [exceptBind_ok] at h; obtain ⟨_x, _, h⟩ := h)
    | (split at h)
    | (rw [exceptPure_ok] at h)
  all_goals simp_all
  all_goals (subst h; simp_all)

open PyModel Helpers in
theorem RealAnalysis.nodes_emit_gt20 {items : List (String × J)} {msgs : List RealAnalysis.MRMsg}
    (h : RealAnalysis.extract_mike_messages_nodes items = .ok msgs) :
    ∀ m ∈ msgs, m.content.length > 20 := by
  induction items generalizing msgs with
  | nil =>
      simp only [RealAnalysis.extract_mike_messages_nodes] at h
      cases h; simp
  | cons kv rest ih =>
      simp only [RealAnalysis.extract_mike_messages_nodes] at h
      rw [exceptBind_ok] at h; obtain ⟨head, hhead, h⟩ := h
      rw [exceptBind_ok] at h; obtain ⟨tail, htail, h⟩ := h
      rw [exceptPure_ok] at h
      subst h
      intro m hm
      cases head with
      | none => exact ih htail m hm
      | some hd =>
          cases hm with
          | head => exact RealAnalysis.node_emits_gt20 hhead
          | tail _ hm' => exact ih htail m hm'

open PyModel Helpers in
theorem RealAnalysis.extract_gt20 {conv : J} {msgs : List RealAnalysis.MRMsg}
    (h : RealAnalysis.extract_mike_messages conv = .ok msgs) :
    ∀ m ∈ msgs, m.content.length > 20 := by
  unfold RealAnalysis.extract_mike_messages at h
  rw [exceptBind_ok] at h; obtain ⟨mapping, _, h⟩ := h
  rw [exceptBind_ok] at h; obtain ⟨items, _, h⟩ := h
  exact RealAnalysis.nodes_emit_gt20 h


open PyModel Fixtures in
/-- C3 (amended): the extractors keep a user message only when its
flattened text is strictly longer than 20 characters: of messages with 20,
25 and 19 characters only the 25-character one is retained (in both
`extract_mike_messages` and `load_and_extract_all`), and every message
either extractor returns has length strictly greater than 20. -/
theorem C3_strict_minimum_length :
    (RealAnalysis.extract_mike_messages conv202519 = .ok
      [⟨"aaaaaaaaaaaaaaaaaaaaaaaaa", J.null, J.null⟩]) ∧
    ((FinalAnalyzer.load_and_extract_all [conv202519]).map
        (fun msgs => msgs.map (fun m => m.length)) = .ok [25]) ∧
    (∀ conv msgs, RealAnalysis.extract_mike_messages conv = .ok msgs →
      ∀ m ∈ msgs, m.content.length > 20) := by
  exact ⟨rfl, rfl, fun conv msgs h m hm => RealAnalysis.extract_gt20 h m hm⟩

/-! ## Claim C7 — occurrence granularity -/

open PyModel Fixtures in
/-- C7 (counterexample): in the conversation whose single user message is
`"data flows into data lakes"` the `data_driven` expression matches at two
distinct positions, yet `extract_thinking_patterns` records exactly one
example for the rule (and counts it once), not the claimed two
occurrence records. -/
theorem C7_counterexample :
    ChatgptAnalyzer.extract_thinking_patterns [convDataTwice] = .ok
      { data_driven := ⟨1, ["data flows into data lakes..."]⟩ } := by rfl

open PyModel in
/-- C7 (amended): per rule and per message, `extract_thinking_patterns`
uses a single `re.search`: however many positions an expression matches at,
the rule's count grows by at most one and at most one example record (a
`content[:300] + '...'` excerpt) is appended — and never beyond three
examples per rule. -/
theorem C7_at_most_one_occurrence_per_rule_per_message
    (re : RE) (content : String) (st : ChatgptAnalyzer.RuleState) :
    (ChatgptAnalyzer.ruleStep re content st).count ≤ st.count + 1 ∧
    (ChatgptAnalyzer.ruleStep re content st).examples.length ≤ st.examples.length + 1 ∧
    (ChatgptAnalyzer.ruleStep re content st).examples.length ≤ max st.examples.length 3 := by
  unfold ChatgptAnalyzer.ruleStep
  split
  · refine ⟨Nat.le_refl _, ?_, ?_⟩
    · split
      · simp
      · simp
    · split
      · next h => simp only [List.length_append, List.length_singleton]; omega
      · exact Nat.le_max_left _ _
  · exact ⟨Nat.le_succ _, Nat.le_succ _, Nat.le_max_left _ _⟩

/-! ## Claim C8 — excerpt dedup normalization -/

namespace FinalAnalyzer

open PyModel

/-- Collapse runs of whitespace to a single space (part of the
spec-modelled normalization); `prevSpace` records whether the previous
character was whitespace. -/
def specCollapseGo (prevSpace : Bool) : List Char → List Char
  | [] => []
  | c :: rest =>
      if pyIsSpace c then
        if prevSpace then specCollapseGo true rest
        else ' ' :: specCollapseGo true rest
      else c :: specCollapseGo false rest

/-- Collapse runs of whitespace to a single space. -/
def specCollapse (l : List Char) : List Char := specCollapseGo false l

/-- Modelled from the spec: the normalization the Consolidator is claimed
to deduplicate by — lowercasing plus collapsing of whitespace runs into
single spaces.  (The code of `find_unique_insights` lowercases only.) -/
def specNormalize (s : String) : String :=
  String.mk (specCollapse (pyLower s).toList)

end FinalAnalyzer

open PyModel Fixtures in
/-- C8 (counterexample): two insights equal after lowercasing and
whitespace collapsing but differing in internal whitespace both survive
`find_unique_insights` — the dedup is by lowercased text only, so the
Consolidator's output contains both of them. -/
theorem C8_counterexample :
    (FinalAnalyzer.find_unique_insights [msgDoubleSpace, msgSingleSpace]).map
        (fun i => i.insight) =
      ["the  whole system builds itself end to end",
       "the whole system builds itself end to end"] ∧
    FinalAnalyzer.specNormalize "the  whole system builds itself end to end" =
      FinalAnalyzer.specNormalize "the whole system builds itself end to end" ∧
    ("the  whole system builds itself end to end" : String) ≠
      "the whole system builds itself end to end" := by
  refine ⟨rfl, rfl, by decide⟩

open PyModel Fixtures in
/-- Witness for the implication of `C3_strict_minimum_length` at the
Scenario B conversation. -/
theorem C3_strict_minimum_length_witness :
    (⟨"aaaaaaaaaaaaaaaaaaaaaaaaa", J.null, J.null⟩ : RealAnalysis.MRMsg).content.length > 20 :=
  C3_strict_minimum_length.2.2 conv202519 [⟨"aaaaaaaaaaaaaaaaaaaaaaaaa", J.null, J.null⟩]
    rfl ⟨"aaaaaaaaaaaaaaaaaaaaaaaaa", J.null, J.null⟩ (by simp)

open PyModel Helpers in
/-- The printing loop of `find_unique_insights` never prints the same
lowercased insight twice, and prints nothing whose lowercased form was
already in `seen`. -/
theorem FinalAnalyzer.printedGo_nodup (l : List FinalAnalyzer.Insight) :
    ∀ seen : List String,
      ((FinalAnalyzer.printedInsights.go seen l).map (fun i => pyLower i.insight)).Nodup ∧
      ∀ i ∈ FinalAnalyzer.printedInsights.go seen l, pyLower i.insight ∉ seen := by
  induction l with
  | nil => intro seen; simp [FinalAnalyzer.printedInsights.go]
  | cons item rest ih =>
      intro seen
      simp only [FinalAnalyzer.printedInsights.go]
      split
      · next hcond =>
          refine ⟨?_, ?_⟩
          · simp only [List.map_cons, List.nodup_cons]
            refine ⟨?_, (ih _).1⟩
            intro hmem
            obtain ⟨j, hj, hje⟩ := List.mem_map.mp hmem
            have hnot := (ih (pyLower item.insight :: seen)).2 j hj
            exact hnot (hje ▸ List.mem_cons_self _ _)
          · intro i hi
            rcases hi with _ | ⟨_, hi'⟩
            · exact hcond.1
            · have hnot := (ih (pyLower item.insight :: seen)).2 i hi'
              exact fun hmem => hnot (List.mem_cons_of_mem _ hmem)
      · exact ih seen

open PyModel in
/-- C8 (amended): `find_unique_insights` deduplicates printed insights by
their exact lowercased text only (no whitespace collapsing), over the first
30 insights and only those longer than 30 characters: the printed list
never contains two insights with the same lowercased text, but insights
differing in internal whitespace are not collapsed. -/
theorem C8_dedup_is_lowercase_exact (insights : List FinalAnalyzer.Insight) :
    ((FinalAnalyzer.printedInsights insights).map (fun i => pyLower i.insight)).Nodup :=
  (FinalAnalyzer.printedGo_nodup (insights.take 30) []).1

/-! ## Claim C1 — `extract_full_conversation` emits nothing -/

open PyModel in
/-- Root detection always fails: the membership test compares a node-id
string against `(node_id, node)` pairs. -/
theorem DeepDive.root_nodes_empty (l : List String) (b : List (String × J)) :
    (l.filter fun n => b.any fun p => DeepDive.pyEqStrPair n p) = [] := by
  induction l with
  | nil => rfl
  | cons a l ih => simp [List.filter_cons, DeepDive.pyEqStrPair, ih]

open PyModel Helpers in
/-- C1: whenever `DeepDiveAnalyzer.extract_full_conversation` returns (for
any title and any node mapping), its result has an empty `messages` list
and `total_messages = 0`: the root-node test `n in nodes_by_parent[None]`
compares a node-id string against `(node_id, node)` pairs and is always
false, so no root is selected and the traversal emits nothing. -/
theorem C1_extract_full_conversation_always_empty
    (conv : J) (r : DeepDive.DDConv)
    (h : DeepDive.extract_full_conversation conv = .ok r) :
    r.messages = [] ∧ r.total_messages = 0 := by
  simp only [DeepDive.extract_full_conversation] at h
  repeat'
    first
    | (rw [exceptBind_ok] at h; obtain ⟨_x, hstep, h⟩ := h)
    | (rw [exceptPure_ok] at h)
  rw [DeepDive.root_nodes_empty] at hstep
  simp only [DeepDive.rootsFold, Except.ok.injEq] at hstep
  subst hstep
  subst h
  exact ⟨rfl, rfl⟩

open PyModel in
/-- Witness for `C1_extract_full_conversation_always_empty` at the empty
conversation record. -/
theorem C1_witness :
    (⟨J.str "Unknown", J.num 0, [], 0⟩ : DeepDive.DDConv).messages = [] ∧
    (⟨J.str "Unknown", J.num 0, [], 0⟩ : DeepDive.DDConv).total_messages = 0 :=
  C1_extract_full_conversation_always_empty (J.obj [])
    ⟨J.str "Unknown", J.num 0, [], 0⟩ rfl

/-! ## Claim C9 — document order -/

open PyModel Fixtures in
/-- C9 (counterexample): in a conversation whose mapping lists the child
node (parent `"root"`) before its parent, `extract_messages` emits the
child's message first — the parent's message does not precede its child's,
so the document-order invariant fails. -/
theorem C9_counterexample :
    ChatgptAnalyzer.extract_messages convChildFirst = .ok
      [⟨J.str "user", "child message", J.null, "child"⟩,
       ⟨J.str "user", "root message", J.null, "root"⟩] ∧
    pyGet nodeChild "parent" J.null = .ok (J.str "root") := by
  exact ⟨rfl, rfl⟩

open PyModel Helpers in
/-- C9 (amended): `ConversationAnalyzer.extract_messages` emits messages in
node-mapping iteration order — whenever it succeeds, its output equals the
`filterMap` of the per-node extraction over the mapping items in order.  A
mapping whose iteration order places a child before its parent therefore
lists the child's message first, violating the parent-before-child
invariant (while `extract_full_conversation` satisfies it only vacuously,
its output being always empty). -/
theorem C9_output_is_mapping_iteration_order
    (items : List (String × J)) (msgs : List ChatgptAnalyzer.CAMsg)
    (h : ChatgptAnalyzer.extract_messages_nodes items = .ok msgs) :
    msgs = items.filterMap
      (fun kv => ((ChatgptAnalyzer.extract_messages_node kv).toOption).join) := by
  induction items generalizing msgs with
  | nil =>
      simp only [ChatgptAnalyzer.extract_messages_nodes] at h
      cases h; rfl
  | cons kv rest ih =>
      simp only [ChatgptAnalyzer.extract_messages_nodes] at h
      rw [exceptBind_ok] at h; obtain ⟨head, hhead, h⟩ := h
      rw [exceptBind_ok] at h; obtain ⟨tail, htail, h⟩ := h
      rw [exceptPure_ok] at h
      subst h
      rw [List.filterMap_cons, hhead]
      cases head with
      | none => simpa [Except.toOption, Option.bind] using ih _ htail
      | some m => simpa [Except.toOption, Option.bind] using ih _ htail

open PyModel Fixtures in
/-- Witness for `C9_output_is_mapping_iteration_order` at the child-first
mapping. -/
theorem C9_witness :
    [(⟨J.str "user", "child message", J.null, "child"⟩ : ChatgptAnalyzer.CAMsg),
     ⟨J.str "user", "root message", J.null, "root"⟩] =
      [("child", nodeChild), ("root", nodeRoot)].filterMap
        (fun kv => ((ChatgptAnalyzer.extract_messages_node kv).toOption).join) :=
  C9_output_is_mapping_iteration_order [("child", nodeChild), ("root", nodeRoot)] _ rfl

/-! ## Claim C10 — temporal aggregation of messages without timestamps -/

open PyModel Fixtures in
/-- C10 (counterexample): a message whose own `create_time` is absent, in a
conversation created at epoch 1721001600 (July 2024), is NOT excluded from
temporal aggregation: it inherits the conversation's timestamp and is
counted in the `"2024-07"` bucket. -/
theorem C10_counterexample :
    (FinalAnalyzer.load_and_extract_all [convInherit 1721001600] >>=
        FinalAnalyzer.track_evolution) =
      .ok [("2024-07",
            ⟨[⟨"this message is long enough ok", J.str "t", J.num 1721001600, 30⟩], []⟩)] := by
  rfl

open PyModel Fixtures in
/-- C10 (amended): a message lacking its own creation timestamp inherits
its conversation's `create_time` (the `msg.get('create_time', create_time)`
default), and temporal aggregation counts it in the bucket of the inherited
timestamp whenever that timestamp is truthy; it is excluded only when the
inherited value is falsy as well. -/
theorem C10_message_inherits_conversation_timestamp (T : Int) (hT : T ≠ 0) :
    FinalAnalyzer.load_and_extract_all [convInherit T] =
      .ok [⟨"this message is long enough ok", J.str "t", J.num T, 30⟩] ∧
    FinalAnalyzer.track_evolution
        [⟨"this message is long enough ok", J.str "t", J.num T, 30⟩] =
      .ok [(FinalAnalyzer.monthKeyOfEpoch T,
            ⟨[⟨"this message is long enough ok", J.str "t", J.num T, 30⟩], []⟩)] := by
  refine ⟨rfl, ?_⟩
  unfold FinalAnalyzer.track_evolution FinalAnalyzer.track_evolution.go
    FinalAnalyzer.track_evolution_step
  simp only [show pyTruthy (J.num T) = true from by simp [pyTruthy, hT]]
  rfl

open PyModel Fixtures in
/-- Witness for `C10_message_inherits_conversation_timestamp` at epoch 1. -/
theorem C10_witness :
    FinalAnalyzer.load_and_extract_all [convInherit 1] =
      .ok [⟨"this message is long enough ok", J.str "t", J.num 1, 30⟩] ∧
    FinalAnalyzer.track_evolution
        [⟨"this message is long enough ok", J.str "t", J.num 1, 30⟩] =
      .ok [(FinalAnalyzer.monthKeyOfEpoch 1,
            ⟨[⟨"this message is long enough ok", J.str "t", J.num 1, 30⟩], []⟩)] :=
  C10_message_inherits_conversation_timestamp 1 (by decide)

/-! ## Claim C6 — chunk splitting -/

namespace ChunkProcessor

/-- Proof-side recursion for the chunk list; equal to `sliceChunks` for
positive chunk sizes. -/
def chunksRec (c : Nat) (l : List α) : List (List α) :=
  if _h : 0 < c ∧ 0 < l.length then l.take c :: chunksRec c (l.drop c) else []
termination_by l.length
decreasing_by simp only [List.length_drop]; omega

/-- Shifting a positive-step range shifts its elements. -/
theorem pyRange_shift (s : Nat) (hs : 0 < s) (a b : Nat) :
    pyRange (a + s) b s = (pyRange a (b - s) s).map (· + s) := by
  conv_lhs => rw [pyRange_eq]
  conv_rhs => rw [pyRange_eq]
  by_cases hab : a < b - s
  · rw [if_pos ⟨hs, by omega⟩, if_pos ⟨hs, hab⟩, List.map_cons]
    exact congrArg _ (pyRange_shift s hs (a + s) b)
  · rw [if_neg (by omega), if_neg (by omega)]
    rfl
termination_by b - a
decreasing_by omega

/-- The source's slice comprehension equals the recursive chunking. -/
theorem sliceChunks_eq_chunksRec (c : Nat) (hc : 0 < c) (l : List α) :
    sliceChunks l c = chunksRec c l := by
  rw [chunksRec]
  by_cases hl : 0 < l.length
  · rw [dif_pos ⟨hc, hl⟩]
    unfold sliceChunks
    conv_lhs => rw [pyRange_eq]
    rw [if_pos ⟨hc, hl⟩, List.map_cons, List.drop_zero]
    refine congrArg (l.take c :: ·) ?_
    have hsh := pyRange_shift c hc 0 l.length
    rw [Nat.zero_add] at hsh
    rw [show (0 + c) = c from Nat.zero_add c, hsh, List.map_map]
    rw [show l.length - c = (l.drop c).length by simp]
    rw [← sliceChunks_eq_chunksRec c hc (l.drop c)]
    unfold sliceChunks
    apply List.map_congr_left
    intro i _
    simp [Nat.add_comm]
  · rw [dif_neg (by omega)]
    unfold sliceChunks
    conv_lhs => rw [pyRange_eq]
    rw [if_neg (by omega)]
    rfl
termination_by l.length
decreasing_by simp only [List.length_drop]; omega

/-- Concatenating the chunks reproduces the corpus. -/
theorem chunksRec_flatten (c : Nat) (hc : 0 < c) (l : List α) :
    (chunksRec c l).flatten = l := by
  rw [chunksRec]
  by_cases hl : 0 < l.length
  · rw [dif_pos ⟨hc, hl⟩]
    simp only [List.flatten_cons]
    rw [chunksRec_flatten c hc (l.drop c)]
    exact List.take_append_drop c l
  · rw [dif_neg (by omega)]
    have : l = [] := List.eq_nil_of_length_eq_zero (by omega)
    simp [this]
termination_by l.length
decreasing_by simp only [List.length_drop]; omega

/-- Chunk sizes: `len / c` full chunks of size `c`, then one of size
`len % c` when `c` does not divide `len`. -/
theorem chunksRec_map_length (c : Nat) (hc : 0 < c) (l : List α) :
    (chunksRec c l).map List.length =
      List.replicate (l.length / c) c ++
        (if l.length % c = 0 then [] else [l.length % c]) := by
  rw [chunksRec]
  by_cases hl : 0 < l.length
  · rw [dif_pos ⟨hc, hl⟩, List.map_cons, chunksRec_map_length c hc (l.drop c)]
    simp only [List.length_take, List.length_drop]
    rcases Nat.lt_or_ge l.length c with hlt | hge
    · have h1 : l.length / c = 0 := Nat.div_eq_of_lt hlt
      have h2 : l.length % c = l.length := Nat.mod_eq_of_lt hlt
      have h3 : l.length - c = 0 := by omega
      simp [h1, h2, h3, Nat.min_eq_right (Nat.le_of_lt hlt),
        Nat.pos_iff_ne_zero.mp hl]
    · rcases Nat.lt_or_ge c l.length with hlt2 | hge2
      · have h1 : l.length / c = (l.length - c) / c + 1 :=
          Nat.div_eq_sub_div hc (by omega)
        have h2 : l.length % c = (l.length - c) % c := Nat.mod_eq_sub_mod (by omega)
        rw [h1, ← h2, List.replicate_succ]
        simp [Nat.min_eq_left (by omega : c ≤ l.length)]
      · have heq : l.length = c := by omega
        simp [heq, Nat.div_self hc, Nat.mod_self, List.replicate_succ, Nat.sub_self]
  · rw [dif_neg (by omega)]
    have h0 : l.length = 0 := by omega
    simp [h0]
termination_by l.length
decreasing_by simp only [List.length_drop]; omega

/-- The number of chunks is the ceiling of `len / c`. -/
theorem chunksRec_length (c : Nat) (hc : 0 < c) (l : List α) :
    (chunksRec c l).length = (l.length + c - 1) / c := by
  have hmap := chunksRec_map_length c hc l
  have hlen : (chunksRec c l).length = ((chunksRec c l).map List.length).length :=
    (List.length_map _ _).symm
  rw [hlen, hmap, List.length_append, List.length_replicate]
  have hone : l.length + c - 1 = l.length + (c - 1) := by omega
  rw [hone, Nat.add_div hc, Nat.div_eq_of_lt (show c - 1 < c by omega),
    Nat.mod_eq_of_lt (show c - 1 < c by omega)]
  have hmod : l.length % c < c := Nat.mod_lt _ hc
  by_cases hz : l.length % c = 0
  · rw [if_pos hz, if_neg (by omega)]
    simp
  · rw [if_neg hz, if_pos (by omega)]
    simp

end ChunkProcessor

open ChunkProcessor in
/-- C6: for every corpus `l` and chunk size `c > 0`, `process_all_chunks`'s
chunk list (`sliceChunks`) consists of contiguous, order-preserving chunks
whose concatenation reproduces the corpus; all chunks have size `c` except
the last, which has size `len % c` when `c` does not divide `len`; and the
number of chunks is the ceiling of `len / c` (in particular 120
conversations with chunk size 50 give 3 chunks of sizes 50, 50 and 20). -/
theorem C6_chunking {α : Type} (l : List α) (c : Nat) (hc : 0 < c) :
    (sliceChunks l c).flatten = l ∧
    (sliceChunks l c).map List.length =
      List.replicate (l.length / c) c ++
        (if l.length % c = 0 then [] else [l.length % c]) ∧
    (sliceChunks l c).length = (l.length + c - 1) / c := by
  rw [sliceChunks_eq_chunksRec c hc l]
  exact ⟨chunksRec_flatten c hc l, chunksRec_map_length c hc l, chunksRec_length c hc l⟩

open ChunkProcessor in
/-- Witness for `C6_chunking`: Scenario C, 120 conversations at chunk size
50 give chunks of sizes 50, 50 and 20 that concatenate to the corpus. -/
theorem C6_chunking_witness :
    (sliceChunks (List.range 120) 50).flatten = List.range 120 ∧
    (sliceChunks (List.range 120) 50).map List.length = [50, 50, 20] ∧
    (sliceChunks (List.range 120) 50).length = 3 := by
  have h := C6_chunking (List.range 120) 50 (by decide)
  refine ⟨h.1, ?_, ?_⟩
  · have h2 := h.2.1
    simpa [List.replicate] using h2
  · have h3 := h.2.2
    simpa using h3

/-! ## Claim C5 — chunk failure policy -/

namespace ChunkProcessor

open PyModel Helpers FinalAnalyzer

/-- The conversation loop succeeds when every conversation's data
extraction succeeds. -/
theorem cpConvFold_ok {l : List J}
    (h : ∀ conv ∈ l, ∃ d, convData conv = .ok d) :
    ∀ acc, ∃ acc', cpConvFold acc l = .ok acc' := by
  induction l with
  | nil => intro acc; exact ⟨acc, rfl⟩
  | cons conv rest ih =>
      intro acc
      obtain ⟨d, hd⟩ := h conv (List.mem_cons_self _ _)
      obtain ⟨acc', hacc'⟩ := ih (fun c hc => h c (List.mem_cons_of_mem _ hc))
        (d.2.2.foldl (cpMsgStep d.1 d.2.1) acc)
      refine ⟨acc', ?_⟩
      simp only [cpConvFold, hd, Except.bind, Bind.bind]
      exact hacc'

/-- An exception raised on one conversation propagates out of the
conversation loop, regardless of the accumulated state. -/
theorem cpConvFold_error {l₁ : List J} {bad : J} {l₂ : List J} {e : String}
    (hok : ∀ conv ∈ l₁, ∃ d, convData conv = .ok d)
    (hbad : convData bad = .error e) :
    ∀ acc, cpConvFold acc (l₁ ++ bad :: l₂) = .error e := by
  induction l₁ with
  | nil =>
      intro acc
      simp only [List.nil_append, cpConvFold, hbad, Bind.bind, Except.bind]
  | cons conv rest ih =>
      intro acc
      obtain ⟨d, hd⟩ := hok conv (List.mem_cons_self _ _)
      simp only [List.cons_append, cpConvFold, hd, Bind.bind, Except.bind]
      exact ih (fun c hc => hok c (List.mem_cons_of_mem _ hc)) _

/-- `process_chunk` succeeds whenever its conversation loop does. -/
theorem process_chunk_ok {st : GlobalState} {convs : List J}
    (h : ∀ conv ∈ convs, ∃ d, convData conv = .ok d) :
    ∃ st', process_chunk st convs = .ok st' := by
  obtain ⟨acc, hacc⟩ := cpConvFold_ok h ([], [], st.unique_phrases)
  refine ⟨{ st with
      cognitive_strategies := st.cognitive_strategies ++ acc.1,
      problem_solving := st.problem_solving ++ acc.2.1,
      unique_phrases := acc.2.2 }, ?_⟩
  simp only [process_chunk, hacc, Bind.bind, Except.bind]
  rfl

/-- `process_chunk` propagates an exception from its conversation loop. -/
theorem process_chunk_error {st : GlobalState} {convs : List J} {e : String}
    (h : cpConvFold ([], [], st.unique_phrases) convs = .error e) :
    process_chunk st convs = .error e := by
  simp only [process_chunk, h, Bind.bind, Except.bind]

/-- The chunk loop aborts with the first conversation's exception: if the
concatenation of the chunks lists the failing conversation after a prefix
of successfully processed ones, the whole fold returns that error. -/
theorem chunksFold_error {bad : J} {e : String}
    (hbad : convData bad = .error e) :
    ∀ (chunks : List (List J)) (st : GlobalState) (cs₁ cs₂ : List J),
      chunks.flatten = cs₁ ++ bad :: cs₂ →
      (∀ conv ∈ cs₁, ∃ d, convData conv = .ok d) →
      chunksFold st chunks = .error e := by
  intro chunks
  induction chunks with
  | nil =>
      intro st cs₁ cs₂ hflat _
      exact absurd hflat.symm (List.append_ne_nil_of_right_ne_nil _ (by simp))
  | cons ch rest ih =>
      intro st cs₁ cs₂ hflat hok
      rw [List.flatten_cons] at hflat
      rcases List.append_eq_append_iff.mp hflat with ⟨a', ha1, ha2⟩ | ⟨c', hc1, hc2⟩
      · -- cs₁ = ch ++ a' : the whole chunk succeeds, recurse
        have hchok : ∀ conv ∈ ch, ∃ d, convData conv = .ok d := by
          intro conv hconv
          exact hok conv (ha1 ▸ List.mem_append_left _ hconv)
        obtain ⟨st', hst'⟩ := @process_chunk_ok st _ hchok
        simp only [chunksFold, hst', Bind.bind, Except.bind]
        refine ih st' a' cs₂ ha2 ?_
        intro conv hconv
        exact hok conv (ha1 ▸ List.mem_append_right _ hconv)
      · -- ch = cs₁ ++ c'
        cases c' with
        | nil =>
            -- ch = cs₁, and the failing conversation heads the rest
            simp only [List.append_nil] at hc1
            have hchok : ∀ conv ∈ ch, ∃ d, convData conv = .ok d := hc1 ▸ hok
            obtain ⟨st', hst'⟩ := @process_chunk_ok st _ hchok
            simp only [chunksFold, hst', Bind.bind, Except.bind]
            exact ih st' [] cs₂ (by simpa using hc2.symm) (by simp)
        | cons b t =>
            -- the failing conversation is inside this chunk
            have hb : b = bad ∧ cs₂ = t ++ rest.flatten := by
              have := hc2
              cases this; exact ⟨rfl, rfl⟩
            have herr : process_chunk st ch = .error e := by
              apply process_chunk_error
              rw [hc1, hb.1]
              exact cpConvFold_error hok hbad _
            simp only [chunksFold, herr, Bind.bind, Except.bind]

end ChunkProcessor

open PyModel ChunkProcessor Fixtures in
/-- C5 (counterexample): in a two-conversation corpus whose first
conversation has a string `content` value, `process_all_chunks` aborts with
the raised `AttributeError` — the second conversation and the run's output
are lost, although processing the second conversation alone succeeds and
contributes a `problem_solving` pattern. -/
theorem C5_counterexample :
    process_all_chunks [convBad, convGood] 50 = .error "AttributeError: get" ∧
    ∃ st, process_all_chunks [convGood] 50 = .ok st ∧ st.problem_solving.length = 1 := by
  constructor
  · rfl
  · exact ⟨_, rfl, rfl⟩

open PyModel ChunkProcessor in
/-- C5 (amended): an exception raised while processing one conversation
inside a chunk aborts the chunk and the whole run: for every corpus that
lists the failing conversation after conversations whose data extraction
succeeds, and every positive chunk size, `process_all_chunks` returns that
conversation's error — the rest of its chunk and all later chunks are never
processed (there is no exception handler in `process_chunk` or
`process_all_chunks`). -/
theorem C5_exception_aborts_run
    (cs₁ : List J) (bad : J) (cs₂ : List J) (e : String) (c : Nat)
    (hc : 0 < c)
    (hok : ∀ conv ∈ cs₁, ∃ d, convData conv = .ok d)
    (hbad : convData bad = .error e) :
    process_all_chunks (cs₁ ++ bad :: cs₂) c = .error e := by
  unfold process_all_chunks
  refine chunksFold_error hbad _ _ cs₁ cs₂ ?_ hok
  have h := sliceChunks_eq_chunksRec c hc (cs₁ ++ bad :: cs₂)
  rw [h, chunksRec_flatten c hc]

open PyModel ChunkProcessor Fixtures in
/-- Witness for `C5_exception_aborts_run` at the concrete two-conversation
corpus. -/
theorem C5_exception_aborts_run_witness :
    process_all_chunks ([convGood] ++ convBad :: []) 50 = .error "AttributeError: get" :=
  C5_exception_aborts_run [convGood] convBad [] "AttributeError: get" 50 (by decide)
    (by intro conv hconv
        simp only [List.mem_singleton] at hconv
        subst hconv
        exact ⟨_, rfl⟩)
    rfl

/-! ## Claim C2 — robustness on malformed nodes -/

namespace ChunkProcessor

open PyModel

/-- A `text` field that cannot break extraction: absent, falsy, or a
string. -/
def textBenign : Option J → Bool
  | none => true
  | some t => !pyTruthy t || isStr t

/-- A content part that cannot break extraction: anything non-dict is
skipped by the `isinstance` tests; a dict must have a benign `text`. -/
def partBenign : J → Bool
  | J.obj pf => textBenign (jLookup pf "text")
  | _ => true

/-- A `content` value that cannot break extraction: absent, or a dict
whose `parts`, when present, is a list of benign parts. -/
def contentBenign : Option J → Bool
  | none => true
  | some (J.obj cf) =>
      (match jLookup cf "parts" with
       | none => true
       | some (J.arr ps) => ps.all partBenign
       | some _ => false)
  | some _ => false

/-- An `author` value that cannot break extraction: absent, falsy, or a
dict. -/
def authorBenign : Option J → Bool
  | none => true
  | some (J.obj _) => true
  | some a => !pyTruthy a

/-- A message value that cannot break extraction: falsy (skipped), or a
dict with benign `author` and `content` — in particular a message may lack
any of those fields. -/
def msgBenign : J → Bool
  | J.obj mf => authorBenign (jLookup mf "author") && contentBenign (jLookup mf "content")
  | x => !pyTruthy x

/-- A node that cannot break `extract_user_content`: falsy (skipped), or a
dict whose `message`, when present, is benign. -/
def nodeBenign : J → Bool
  | J.obj nf =>
      (match jLookup nf "message" with
       | none => true
       | some m => msgBenign m)
  | x => !pyTruthy x

/-- `x.get(k, d)` on a dict never raises. -/
theorem pyGet_obj (fields : List (String × J)) (k : String) (d : J) :
    pyGet (J.obj fields) k d = .ok ((jLookup fields k).getD d) := by
  cases h : jLookup fields k <;> simp [pyGet, h]

/-- Benign parts only contribute strings. -/
theorem textPartsPlain_isStr {ps : List J} (h : ps.all partBenign = true) :
    ∀ x ∈ textPartsPlain ps, isStr x = true := by
  induction ps with
  | nil => simp [textPartsPlain]
  | cons p rest ih =>
      rw [List.all_cons, Bool.and_eq_true] at h
      intro x hx
      cases p with
      | obj pf =>
          rw [show textPartsPlain (J.obj pf :: rest) =
                (if pyTruthy ((jLookup pf "text").getD J.null) then
                   (jLookup pf "text").getD J.null :: textPartsPlain rest
                 else textPartsPlain rest) from rfl] at hx
          split at hx
          · next htr =>
              rcases List.mem_cons.mp hx with rfl | hx'
              · have hb := h.1
                simp only [partBenign] at hb
                cases hlk : jLookup pf "text" with
                | none => rw [hlk] at htr; simp [pyTruthy] at htr
                | some t =>
                    rw [hlk] at hb htr
                    simp only [textBenign] at hb
                    simp only [Option.getD_some] at htr
                    rcases (Bool.or_eq_true _ _).mp hb with hfalsy | hstr
                    · rw [htr] at hfalsy; simp at hfalsy
                    · simpa using hstr
              · exact ih h.2 x hx'
          · exact ih h.2 x hx
      | str s =>
          rw [show textPartsPlain (J.str s :: rest) =
                J.str s :: textPartsPlain rest from rfl] at hx
          rcases List.mem_cons.mp hx with rfl | hx'
          · rfl
          · exact ih h.2 x hx'
      | null => exact ih h.2 x hx
      | bool b => exact ih h.2 x hx
      | num n => exact ih h.2 x hx
      | arr l => exact ih h.2 x hx

/-- Joining a list of strings cannot raise. -/
theorem pyJoinSpace_ok {xs : List J} (h : ∀ x ∈ xs, isStr x = true) :
    ∃ s, pyJoinSpace xs = .ok s := by
  induction xs with
  | nil => exact ⟨"", rfl⟩
  | cons x rest ih =>
      obtain ⟨t, ht⟩ := ih (fun y hy => h y (List.mem_cons_of_mem _ hy))
      have hx := h x (List.mem_cons_self _ _)
      cases x <;> simp [isStr] at hx
      next s =>
        refine ⟨if rest.isEmpty then s else s ++ " " ++ t, ?_⟩
        simp only [pyJoinSpace, pyJoinSpace.expectStr, ht, Bind.bind, Except.bind]
        split <;> rfl

end ChunkProcessor

namespace ChunkProcessor

open PyModel

/-- A benign node never makes `extract_user_content_node` raise. -/
theorem node_benign_safe {node : J} (h : nodeBenign node = true) :
    ∃ r, extract_user_content_node node = .ok r := by
  cases ht : pyTruthy node with
  | false =>
      exact ⟨none, by
        simp [extract_user_content_node, ht, Pure.pure, Except.pure]⟩
  | true =>
    cases node with
    | null => simp [pyTruthy] at ht
    | bool b => refine ⟨none, ?_⟩; simp [nodeBenign, ht] at h
    | num n => refine ⟨none, ?_⟩; simp [nodeBenign, ht] at h
    | str s => refine ⟨none, ?_⟩; simp [nodeBenign, ht] at h
    | arr l => refine ⟨none, ?_⟩; simp [nodeBenign, ht] at h
    | obj nf =>
      cases hmsg : jLookup nf "message" with
      | none =>
          exact ⟨none, by
            simp [extract_user_content_node, ht, pyGet_obj, Option.getD_some, Option.getD_none, hmsg, pyTruthy,
              Bind.bind, Except.bind, Pure.pure, Except.pure]⟩
      | some m =>
        have hmb : msgBenign m = true := by
          have h' := h
          simp only [nodeBenign, hmsg] at h'
          exact h'
        cases htm : pyTruthy m with
        | false =>
            exact ⟨none, by
              simp [extract_user_content_node, ht, pyGet_obj, Option.getD_some, Option.getD_none, hmsg, htm,
                Bind.bind, Except.bind, Pure.pure, Except.pure]⟩
        | true =>
          cases m with
          | obj mf =>
            simp only [msgBenign, Bool.and_eq_true] at hmb
            obtain ⟨ha, hc⟩ := hmb
            cases hauth : jLookup mf "author" with
            | none =>
                exact ⟨none, by
                  simp [extract_user_content_node, ht, pyGet_obj, Option.getD_some, Option.getD_none, hmsg, htm, hauth,
                    pyTruthy, Bind.bind, Except.bind, Pure.pure, Except.pure]⟩
            | some a =>
              rw [hauth] at ha
              cases hta : pyTruthy a with
              | false =>
                  exact ⟨none, by
                    simp [extract_user_content_node, ht, pyGet_obj, Option.getD_some, Option.getD_none, hmsg, htm, hauth,
                      hta, Bind.bind, Except.bind, Pure.pure, Except.pure]⟩
              | true =>
                cases a with
                | obj af =>
                  by_cases hrole : jEqStr ((jLookup af "role").getD J.null) "user"
                  case neg =>
                      refine ⟨none, ?_⟩
                      simp [extract_user_content_node, ht, pyGet_obj, Option.getD_some, Option.getD_none, hmsg, htm, hauth,
                        hta, hrole, Bind.bind, Except.bind, Pure.pure, Except.pure]
                  case pos =>
                    cases hcont : jLookup mf "content" with
                    | none =>
                        refine ⟨none, ?_⟩
                        simp [extract_user_content_node, ht, pyGet_obj, Option.getD_some, Option.getD_none, hmsg, htm, hauth,
                          hta, hrole, hcont, jLookup, pyTruthy, Bind.bind, Except.bind, Pure.pure, Except.pure]
                    | some cv =>
                      rw [hcont] at hc
                      cases cv with
                      | obj cf =>
                        cases hparts : jLookup cf "parts" with
                        | none =>
                            refine ⟨none, ?_⟩
                            simp [extract_user_content_node, ht, pyGet_obj, Option.getD_some, Option.getD_none, hmsg, htm,
                              hauth, hta, hrole, hcont, hparts, pyTruthy,
                              Bind.bind, Except.bind, Pure.pure, Except.pure]
                        | some p =>
                          simp only [contentBenign, hparts] at hc
                          cases p with
                          | arr ps =>
                            cases hpe : ps.isEmpty with
                            | true =>
                                refine ⟨none, ?_⟩
                                simp [extract_user_content_node, ht, pyGet_obj, Option.getD_some, Option.getD_none, hmsg,
                                  htm, hauth, hta, hrole, hcont, hparts, hpe,
                                  pyTruthy, Bind.bind, Except.bind, Pure.pure, Except.pure]
                            | false =>
                                obtain ⟨s, hs⟩ := pyJoinSpace_ok (textPartsPlain_isStr hc)
                                have hpt : pyTruthy (J.arr ps) = true := by
                                  simp [pyTruthy, hpe]
                                refine ⟨if s ≠ "" ∧ s.length > 50 then some s else none, ?_⟩
                                simp only [extract_user_content_node, ht, pyGet_obj,
                                  Option.getD_some, Option.getD_none, hmsg,
                                  htm, hauth, hta, hrole, hcont, hparts, hpt, hs,
                                  pyIter, Bool.not_true, Bool.false_eq_true,
                                  if_false, if_true, Bind.bind, Except.bind,
                                  Pure.pure, Except.pure, Bool.not_false]
                                split <;> rfl
                          | null => simp at hc
                          | bool b => simp at hc
                          | num n => simp at hc
                          | str s => simp at hc
                          | obj f => simp at hc
                      | null => simp [contentBenign] at hc
                      | bool b => simp [contentBenign] at hc
                      | num n => simp [contentBenign] at hc
                      | str s => simp [contentBenign] at hc
                      | arr l => simp [contentBenign] at hc
                | null => simp [pyTruthy] at hta
                | bool b => simp [authorBenign, hta] at ha
                | num n => simp [authorBenign, hta] at ha
                | str s => simp [authorBenign, hta] at ha
                | arr l => simp [authorBenign, hta] at ha
          | null => simp [pyTruthy] at htm
          | bool b => simp [msgBenign, htm] at hmb
          | num n => simp [msgBenign, htm] at hmb
          | str s => simp [msgBenign, htm] at hmb
          | arr l => simp [msgBenign, htm] at hmb

end ChunkProcessor

namespace ChunkProcessor

open PyModel

/-- The node loop never raises over benign nodes. -/
theorem nodes_benign_safe {items : List (String × J)}
    (h : ∀ kv ∈ items, nodeBenign kv.2 = true) :
    ∃ msgs, extract_user_content_nodes items = .ok msgs := by
  induction items with
  | nil => exact ⟨[], rfl⟩
  | cons kv rest ih =>
      obtain ⟨r, hr⟩ := node_benign_safe (h kv (List.mem_cons_self _ _))
      obtain ⟨msgs, hmsgs⟩ := ih (fun x hx => h x (List.mem_cons_of_mem _ hx))
      cases r with
      | some m =>
          exact ⟨m :: msgs, by
            simp only [extract_user_content_nodes, hr, hmsgs, Bind.bind,
              Except.bind, Pure.pure, Except.pure]⟩
      | none =>
          exact ⟨msgs, by
            simp only [extract_user_content_nodes, hr, hmsgs, Bind.bind,
              Except.bind, Pure.pure, Except.pure]⟩

/-- A node with no `message` field is skipped. -/
theorem node_missing_message_skipped (nf : List (String × J))
    (hmsg : jLookup nf "message" = none) :
    extract_user_content_node (J.obj nf) = .ok none := by
  cases ht : pyTruthy (J.obj nf) with
  | false => simp [extract_user_content_node, ht, Pure.pure, Except.pure]
  | true =>
      simp [extract_user_content_node, ht, pyGet_obj, hmsg, Option.getD_none,
        pyTruthy, Bind.bind, Except.bind, Pure.pure, Except.pure]

/-- A node whose message lacks the `author` field is skipped (the default
`{}` is falsy). -/
theorem node_missing_author_skipped (nf mf : List (String × J))
    (hmsg : jLookup nf "message" = some (J.obj mf))
    (hauth : jLookup mf "author" = none) :
    extract_user_content_node (J.obj nf) = .ok none := by
  have ht : pyTruthy (J.obj nf) = true := by
    cases nf with
    | nil => simp [jLookup] at hmsg
    | cons a l => simp [pyTruthy]
  cases htm : pyTruthy (J.obj mf) with
  | false =>
      simp [extract_user_content_node, ht, pyGet_obj, hmsg, Option.getD_some, htm,
        Bind.bind, Except.bind, Pure.pure, Except.pure]
  | true =>
      simp [extract_user_content_node, ht, pyGet_obj, hmsg, Option.getD_some, htm,
        hauth, Option.getD_none, pyTruthy, Bind.bind, Except.bind,
        Pure.pure, Except.pure]

/-- A node whose message lacks the `content` field is skipped (the default
`{}` has no `parts`, and the default `[]` is falsy). -/
theorem node_missing_content_skipped (nf mf af : List (String × J))
    (hmsg : jLookup nf "message" = some (J.obj mf))
    (hauth : jLookup mf "author" = some (J.obj af))
    (hcont : jLookup mf "content" = none) :
    extract_user_content_node (J.obj nf) = .ok none := by
  have ht : pyTruthy (J.obj nf) = true := by
    cases nf with
    | nil => simp [jLookup] at hmsg
    | cons a l => simp [pyTruthy]
  have htm : pyTruthy (J.obj mf) = true := by
    cases mf with
    | nil => simp [jLookup] at hauth
    | cons a l => simp [pyTruthy]
  cases hta : pyTruthy (J.obj af) with
  | false =>
      simp [extract_user_content_node, ht, pyGet_obj, hmsg, Option.getD_some, htm,
        hauth, hta, Bind.bind, Except.bind, Pure.pure, Except.pure]
  | true =>
      by_cases hrole : jEqStr ((jLookup af "role").getD J.null) "user"
      · simp [extract_user_content_node, ht, pyGet_obj, hmsg, Option.getD_some, htm,
          hauth, hta, hrole, hcont, Option.getD_none, jLookup, pyTruthy,
          Bind.bind, Except.bind, Pure.pure, Except.pure]
      · simp [extract_user_content_node, ht, pyGet_obj, hmsg, Option.getD_some, htm,
          hauth, hta, hrole, Bind.bind, Except.bind, Pure.pure, Except.pure]

end ChunkProcessor

open PyModel Helpers in
/-- `extract_messages` raises `KeyError` on a node whose message has
extractable content parts but no `author` field. -/
theorem ChatgptAnalyzer.missing_author_raises
    (nid : String) (nf mf cf : List (String × J)) (ps : List J)
    (hmsg : jLookup nf "message" = some (J.obj mf))
    (hauth : jLookup mf "author" = none)
    (hcont : jLookup mf "content" = some (J.obj cf))
    (hparts : jLookup cf "parts" = some (J.arr ps))
    (hpe : ps.isEmpty = false)
    (htext : (PyModel.textPartsWithContent ps).isEmpty = false) :
    ChatgptAnalyzer.extract_messages_node (nid, J.obj nf) =
      .error "KeyError: author" := by
  have htm : pyTruthy (J.obj mf) = true := by
    cases mf with
    | nil => simp [jLookup] at hcont
    | cons a l => simp [pyTruthy]
  have hct : pyTruthy (J.obj cf) = true := by
    cases cf with
    | nil => simp [jLookup] at hparts
    | cons a l => simp [pyTruthy]
  have hpt : pyTruthy (J.arr ps) = true := by simp [pyTruthy, hpe]
  simp [ChatgptAnalyzer.extract_messages_node, ChunkProcessor.pyGet_obj, hmsg,
    Option.getD_some, htm, hcont, hct, hparts, hpt, pyIndex, pyIter, hauth,
    htext, Bind.bind, Except.bind, Pure.pure, Except.pure]

open PyModel Fixtures in
/-- C2 (counterexample): `ConversationAnalyzer.extract_messages` does raise
on a malformed node: on a conversation whose single node's message has
content parts (with extractable text) but no `author` field, it raises
`KeyError` instead of skipping the node. -/
theorem C2_counterexample :
    ChatgptAnalyzer.extract_messages convNoAuthor = .error "KeyError: author" := by
  rfl

open PyModel ChunkProcessor in
/-- C2 (amended): `ChunkProcessor.extract_user_content` never raises on a
conversation whose nodes are malformed only by a missing `message`,
`author` or `content` field (all other structure well-typed): a node
missing any of the three is skipped with no contribution, and the loop
returns normally over any list of such nodes.
`ConversationAnalyzer.extract_messages`, however, raises `KeyError` on a
node whose message carries extractable content parts but no `author`
field. -/
theorem C2_malformed_node_handling :
    (∀ items : List (String × J), (∀ kv ∈ items, nodeBenign kv.2 = true) →
        ∃ msgs, extract_user_content_nodes items = .ok msgs) ∧
    (∀ nf : List (String × J), jLookup nf "message" = none →
        extract_user_content_node (J.obj nf) = .ok none) ∧
    (∀ nf mf : List (String × J), jLookup nf "message" = some (J.obj mf) →
        jLookup mf "author" = none →
        extract_user_content_node (J.obj nf) = .ok none) ∧
    (∀ nf mf af : List (String × J), jLookup nf "message" = some (J.obj mf) →
        jLookup mf "author" = some (J.obj af) →
        jLookup mf "content" = none →
        extract_user_content_node (J.obj nf) = .ok none) ∧
    (∀ (nid : String) (nf mf cf : List (String × J)) (ps : List J),
        jLookup nf "message" = some (J.obj mf) →
        jLookup mf "author" = none →
        jLookup mf "content" = some (J.obj cf) →
        jLookup cf "parts" = some (J.arr ps) →
        ps.isEmpty = false →
        (textPartsWithContent ps).isEmpty = false →
        ChatgptAnalyzer.extract_messages_node (nid, J.obj nf) =
          .error "KeyError: author") :=
  ⟨fun _ h => nodes_benign_safe h,
   node_missing_message_skipped,
   node_missing_author_skipped,
   node_missing_content_skipped,
   ChatgptAnalyzer.missing_author_raises⟩

namespace Fixtures

open PyModel

/-- A node with no `message` field. -/
def nodeNoMessage : J := J.obj [("parent", J.null)]

/-- A node whose message has an author but no `content` field. -/
def nodeNoContent : J :=
  J.obj [("message", J.obj [("author", J.obj [("role", J.str "user")])])]

end Fixtures

open PyModel ChunkProcessor Fixtures in
/-- Witness for `C2_malformed_node_handling` at concrete malformed nodes:
one missing its message, one missing the author, one missing the content,
next to a fully well-formed node. -/
theorem C2_malformed_node_handling_witness :
    (∃ msgs, extract_user_content_nodes
        [("n1", nodeNoMessage), ("n2", nodeNoAuthor), ("n3", nodeNoContent),
         ("n4", mkNode "user" "we should automat everything in this long enough message to pass the filter")] =
      .ok msgs) ∧
    extract_user_content_node (J.obj [("parent", J.null)]) = .ok none ∧
    extract_user_content_node
      (J.obj [("message",
        J.obj [("content", J.obj [("parts", J.arr [J.str "hello world"])])])]) = .ok none ∧
    extract_user_content_node
      (J.obj [("message", J.obj [("author", J.obj [("role", J.str "user")])])]) = .ok none ∧
    ChatgptAnalyzer.extract_messages_node
      ("n1", J.obj [("message",
        J.obj [("content", J.obj [("parts", J.arr [J.str "hello world"])])])]) =
      .error "KeyError: author" := by
  refine ⟨C2_malformed_node_handling.1 _ ?_,
    C2_malformed_node_handling.2.1 _ rfl,
    C2_malformed_node_handling.2.2.1 _ [("content", J.obj [("parts", J.arr [J.str "hello world"])])] rfl rfl,
    C2_malformed_node_handling.2.2.2.1 _ [("author", J.obj [("role", J.str "user")])] [("role", J.str "user")] rfl rfl rfl,
    C2_malformed_node_handling.2.2.2.2 "n1" _
      [("content", J.obj [("parts", J.arr [J.str "hello world"])])]
      [("parts", J.arr [J.str "hello world"])] [J.str "hello world"]
      rfl rfl rfl rfl rfl rfl⟩
  intro kv hkv
  simp only [List.mem_cons, List.not_mem_nil, or_false] at hkv
  rcases hkv with rfl | rfl | rfl | rfl <;> rfl
